import Mathlib

/-!
Shallow embedding of the anime-watcher session core: the data model
(`src/types.rs`), key bindings (`src/config.rs`), the session state and
input router (`src/tui/state.rs`, `src/tui/types.rs`), the quality
selector and the history-resume logic of the orchestration loop
(`src/main.rs`).  Rust strings are modelled as Lean `String` but all
string operations used by the embedded code are re-implemented
structurally over the underlying character list so that every
definition evaluates by kernel reduction.  Machine integers (`i32`,
`i64`) are modelled as `Int`; the `i64` parser checks the `i64` value
range explicitly, as Rust's `str::parse` does.
-/

namespace AnimeWatcher

/-! ### String primitives (structural re-implementations) -/

/-- Lowercase a string character by character (ASCII case folding, which
agrees with Rust `to_lowercase` on all binding and token strings used by
the program). -/
def strToLower (s : String) : String := ⟨s.data.map Char.toLower⟩

/-- Byte-slice `&s[n..]` for an ASCII prefix of length `n` characters. -/
def strDrop (s : String) (n : Nat) : String := ⟨s.data.drop n⟩

/-- Rust `str::starts_with`. -/
def strStartsWith (s pat : String) : Bool := pat.data.isPrefixOf s.data

/-- Rust `String::is_empty`. -/
def strIsEmpty (s : String) : Bool := s.data.isEmpty

/-- Rust `String::push`. -/
def strPush (s : String) (c : Char) : String := ⟨s.data ++ [c]⟩

/-- Rust `String::pop` (drops the last character; identity on `""`). -/
def strPop (s : String) : String := ⟨s.data.dropLast⟩

/-- Rust `str::trim`. -/
def strTrim (s : String) : String :=
  ⟨(s.data.dropWhile Char.isWhitespace).reverse.dropWhile Char.isWhitespace |>.reverse⟩

/-- Split a character list on a separator character; mirrors Rust
`str::split(sep)` (so `"".split` gives one empty part and separators at
the ends give empty parts). -/
def splitOnCharList (sep : Char) : List Char → List (List Char)
  | [] => [[]]
  | c :: cs =>
    let rest := splitOnCharList sep cs
    if c = sep then
      [] :: rest
    else
      match rest with
      | [] => [[c]]
      | r :: rs => (c :: r) :: rs

/-- Rust `str::split(sep)` collected into a vector of strings. -/
def strSplitOn (s : String) (sep : Char) : List String :=
  (splitOnCharList sep s.data).map (fun cs => ⟨cs⟩)

/-- Rust `str::contains(pat)`: substring containment. -/
def strContains (s pat : String) : Bool :=
  s.data.tails.any (fun t => pat.data.isPrefixOf t)

/-- Rust `str::parse::<i64>` / `parse::<i32>` digit scan: an optional
sign followed by at least one ASCII digit, rejecting anything else. -/
def parseDigits : List Char → Option Nat
  | [] => none
  | cs =>
    if cs.all Char.isDigit then
      some (cs.foldl (fun acc c => acc * 10 + (c.toNat - '0'.toNat)) 0)
    else
      none

/-- Sign handling for Rust integer parsing. -/
def parseIntCore (s : String) : Option Int :=
  match s.data with
  | '+' :: rest => (parseDigits rest).map (fun n => (n : Int))
  | '-' :: rest => (parseDigits rest).map (fun n => -(n : Int))
  | cs => (parseDigits cs).map (fun n => (n : Int))

/-- Rust `str::parse::<i64>` including the `i64` range check. -/
def parseI64 (s : String) : Option Int :=
  match parseIntCore s with
  | some v => if -(2 ^ 63) ≤ v ∧ v ≤ 2 ^ 63 - 1 then some v else none
  | none => none

/-- Rust `str::parse::<i32>` including the `i32` range check. -/
def parseI32 (s : String) : Option Int :=
  match parseIntCore s with
  | some v => if -(2 ^ 31) ≤ v ∧ v ≤ 2 ^ 31 - 1 then some v else none
  | none => none

/-- Rust `Iterator::position`: the index of the first element
satisfying the predicate. -/
def listPosition {α : Type} (p : α → Bool) : List α → Option Nat
  | [] => none
  | x :: xs => if p x then some 0 else (listPosition p xs).map (fun i => i + 1)

/-! ### Data model (`src/types.rs`) -/

/-- A processed show (`types::Show`). -/
structure Show where
  id : String
  name : String
  available_episodes : Int
  deriving DecidableEq

/-- An episode (`types::Episode`); `number` is an `i64` in the source. -/
structure Episode where
  id : String
  number : Int
  title : Option String
  deriving DecidableEq

/-- A streaming source (`types::StreamSource`); `quality` is an `i32`
in the source, with `0` meaning unknown quality. -/
structure StreamSource where
  quality : Int
  url : String
  deriving DecidableEq

/-! ### Key events (`crossterm::event`, as used by the router) -/

/-- The key codes the router distinguishes; `Null` stands for every
other `crossterm` key code (all of which fall through to catch-all
match arms in the source). -/
inductive KeyCode where
  | Char (c : Char)
  | Enter
  | Esc
  | Tab
  | Backspace
  | Up
  | Down
  | Left
  | Right
  | Null
  deriving DecidableEq

/-- The modifier set of a key event. -/
structure KeyModifiers where
  ctrl : Bool
  alt : Bool
  meta : Bool
  shift : Bool
  deriving DecidableEq

/-- No modifiers (`KeyModifiers::NONE`). -/
def KeyModifiers.none : KeyModifiers := ⟨false, false, false, false⟩

/-- A keyboard event. -/
structure KeyEvent where
  code : KeyCode
  modifiers : KeyModifiers
  deriving DecidableEq

/-- A plain (unmodified) key press. -/
def plainKey (c : KeyCode) : KeyEvent := ⟨c, KeyModifiers.none⟩

/-! ### Key bindings (`src/config.rs`) -/

/-- `config::KeyBinding::matches`: case-insensitive textual binding,
optionally prefixed by `ctrl+`; ALT and META must be absent, SHIFT is
allowed; a one-byte remainder matches that character. -/
def bindingMatches (b : String) (key : KeyEvent) : Bool :=
  let binding := strToLower b
  let hasCtrl := strStartsWith binding "ctrl+"
  let keyPart := if hasCtrl then strDrop binding 5 else binding
  if hasCtrl ≠ key.modifiers.ctrl then false
  else if key.modifiers.alt ∨ key.modifiers.meta then false
  else if keyPart = "enter" then key.code = KeyCode.Enter
  else if keyPart = "esc" ∨ keyPart = "escape" then key.code = KeyCode.Esc
  else if keyPart = "tab" then key.code = KeyCode.Tab
  else if keyPart = "backspace" then key.code = KeyCode.Backspace
  else if keyPart = "up" then key.code = KeyCode.Up
  else if keyPart = "down" then key.code = KeyCode.Down
  else if keyPart = "left" then key.code = KeyCode.Left
  else if keyPart = "right" then key.code = KeyCode.Right
  else if keyPart = "space" then key.code = KeyCode.Char ' '
  else
    match keyPart.data with
    | [c] => key.code = KeyCode.Char c
    | _ => false

/-- `config::Keybindings`: each action has a list of bindings. -/
structure Keybindings where
  up : List String
  down : List String
  select : List String
  back : List String
  quit : List String
  search : List String
  toggle_focus : List String
  help : List String
  filter : List String
  next : List String
  previous : List String
  replay : List String
  episodes : List String
  new_search : List String
  deriving DecidableEq

/-- `Keybindings::matches`: any binding in the list matches. -/
def keybindingsMatches (bindings : List String) (key : KeyEvent) : Bool :=
  bindings.any (fun b => bindingMatches b key)

/-- The default key bindings from `config.rs`. -/
def defaultKeybindings : Keybindings where
  up := ["k", "Up"]
  down := ["j", "Down"]
  select := ["Enter"]
  back := ["Backspace", "Esc"]
  quit := ["q", "Esc"]
  search := ["s", "/"]
  toggle_focus := ["Tab"]
  help := ["?"]
  filter := ["f"]
  next := ["n"]
  previous := ["p"]
  replay := ["r"]
  episodes := ["e"]
  new_search := ["s", "n"]

/-- `config::ColorScheme` (opaque to the router; carried for fidelity). -/
structure ColorScheme where
  border_focused : String
  border_unfocused : String
  highlight : String
  selection_bg : String
  text : String
  text_dim : String
  error : String
  status : String
  mode_indicator : String
  streaming : String
  download : String
  deriving DecidableEq

/-- The default color scheme from `config.rs`. -/
def defaultColorScheme : ColorScheme where
  border_focused := "Cyan"
  border_unfocused := "DarkGray"
  highlight := "Yellow"
  selection_bg := "DarkGray"
  text := "White"
  text_dim := "DarkGray"
  error := "Red"
  status := "Yellow"
  mode_indicator := "Magenta"
  streaming := "Green"
  download := "Red"

/-! ### Screens, focus, actions (`src/tui/types.rs`) -/

/-- The current screen of the application. -/
inductive Screen where
  | Startup
  | Search
  | ShowList
  | EpisodeList
  | QualitySelect
  | Playback
  | BatchSelect
  | Loading
  deriving DecidableEq

/-- Focus state for the split-panel view. -/
inductive Focus where
  | Sidebar
  | Main
  deriving DecidableEq

/-- Actions returned from the input router (`tui::types::Action`). -/
inductive Action where
  | None
  | Quit
  | Search (query : String)
  | SelectShow (i : Nat)
  | SelectEpisode (i : Nat)
  | SelectQuality (i : Nat)
  | Stream
  | Download
  | Next
  | Previous
  | Replay
  | BackToEpisodes
  | ContinueFromHistory (i : Nat)
  | NewSearch
  | BatchAll
  | BatchRange (rstart rend : Int)
  | BatchSingle
  deriving DecidableEq

/-! ### Application state (`src/tui/state.rs`) -/

/-- The TUI application state (`state::App`).  `ratatui::ListState` is
modelled by its `selected()` value: an `Option Nat`. -/
structure App where
  screen : Screen
  focus : Focus
  should_quit : Bool
  search_input : String
  search_focused : Bool
  shows : List Show
  selected_show : Option Show
  episodes : List Episode
  current_episode : Option Episode
  sources : List StreamSource
  selected_source : Option StreamSource
  show_list_state : Option Nat
  episode_list_state : Option Nat
  quality_list_state : Option Nat
  playback_list_state : Option Nat
  history_records : List (String × String × Int × String)
  history_list_state : Option Nat
  startup_list_state : Option Nat
  batch_list_state : Option Nat
  loading_message : String
  mode : String
  quality : String
  status_message : Option String
  error_message : Option String
  download_mode : Bool
  range_input : String
  range_input_mode : Bool
  show_help : Bool
  episode_filter : String
  episode_filter_active : Bool
  batch_confirm_mode : Bool
  pending_batch_action : Option Action
  keybindings : Keybindings
  colors : ColorScheme
  show_download_modal : Bool
  download_current : Nat
  download_total : Nat
  download_message : String
  download_log : List String
  deriving DecidableEq

/-- `App::new`: the initial state. -/
def App.new (mode quality : String) (download_mode : Bool)
    (keybindings : Keybindings) (colors : ColorScheme) : App where
  screen := Screen.Startup
  focus := Focus.Main
  should_quit := false
  search_input := ""
  search_focused := false
  shows := []
  selected_show := none
  episodes := []
  current_episode := none
  sources := []
  selected_source := none
  show_list_state := none
  episode_list_state := none
  quality_list_state := none
  playback_list_state := none
  history_records := []
  history_list_state := none
  startup_list_state := some 0
  batch_list_state := none
  loading_message := ""
  mode := mode
  quality := quality
  status_message := none
  error_message := none
  download_mode := download_mode
  range_input := ""
  range_input_mode := false
  show_help := false
  episode_filter := ""
  episode_filter_active := false
  batch_confirm_mode := false
  pending_batch_action := none
  keybindings := keybindings
  colors := colors
  show_download_modal := false
  download_current := 0
  download_total := 0
  download_message := ""
  download_log := []

/-- `App::set_history`. -/
def App.set_history (a : App) (records : List (String × String × Int × String)) : App :=
  let has_records := !records.isEmpty
  if has_records then
    { a with history_records := records, history_list_state := some 0 }
  else
    { a with history_records := records }

/-- `App::set_error`. -/
def App.set_error (a : App) (message : String) : App :=
  { a with error_message := some message }

/-- `App::get_filtered_episodes`: an episode matches if its decimal
number contains the filter as a substring, or its title
case-insensitively contains the filter. -/
def App.get_filtered_episodes (a : App) : List Episode :=
  if strIsEmpty a.episode_filter then a.episodes
  else
    let filter_lower := strToLower a.episode_filter
    a.episodes.filter (fun e =>
      let num_str := toString e.number
      if strContains num_str a.episode_filter then true
      else
        match e.title with
        | some title => strContains (strToLower title) filter_lower
        | none => false)

/-- `App::get_playback_options`: the dynamically built playback menu. -/
def App.get_playback_options (a : App) : List String :=
  let base :=
    match a.current_episode with
    | some ep =>
      let current_idx := listPosition (fun e => e.number = ep.number) a.episodes
      let has_next :=
        match current_idx with
        | some i => decide (i + 1 < a.episodes.length)
        | none => false
      let has_prev :=
        match current_idx with
        | some i => decide (i > 0)
        | none => false
      (if has_next then ["Next episode"] else []) ++
        ["Replay"] ++
        (if has_prev then ["Previous episode"] else [])
    | none => []
  base ++ ["Select episode", "Quit"]

/-! ### Input handlers (`src/tui/state.rs`) -/

/-- `App::handle_search_bar_input`. -/
def App.handle_search_bar_input (a : App) (key : KeyEvent) : App × Action :=
  match key.code with
  | KeyCode.Enter =>
    if !strIsEmpty a.search_input then
      let query := a.search_input
      ({ a with search_input := "", search_focused := false, focus := Focus.Main },
        Action.Search query)
    else
      ({ a with search_focused := false }, Action.None)
  | KeyCode.Char c => ({ a with search_input := strPush a.search_input c }, Action.None)
  | KeyCode.Backspace => ({ a with search_input := strPop a.search_input }, Action.None)
  | KeyCode.Esc => ({ a with search_input := "", search_focused := false }, Action.None)
  | _ => (a, Action.None)

/-- `App::handle_sidebar_input`. -/
def App.handle_sidebar_input (a : App) (key : KeyEvent) : App × Action :=
  if keybindingsMatches a.keybindings.up key then
    let i := a.history_list_state.getD 0
    (if i > 0 then { a with history_list_state := some (i - 1) } else a, Action.None)
  else if keybindingsMatches a.keybindings.down key then
    let i := a.history_list_state.getD 0
    (if i < a.history_records.length - 1 then
      { a with history_list_state := some (i + 1) }
    else a, Action.None)
  else if keybindingsMatches a.keybindings.select key then
    match a.history_list_state with
    | some i =>
      if i < a.history_records.length then
        ({ a with focus := Focus.Main }, Action.ContinueFromHistory i)
      else (a, Action.None)
    | none => (a, Action.None)
  else if keybindingsMatches a.keybindings.quit key then
    ({ a with should_quit := true }, Action.Quit)
  else
    (a, Action.None)

/-- `App::handle_startup_input`. -/
def App.handle_startup_input (a : App) (key : KeyEvent) : App × Action :=
  if keybindingsMatches a.keybindings.up key then
    if a.history_records.isEmpty then
      let i := a.startup_list_state.getD 0
      (if i > 0 then { a with startup_list_state := some (i - 1) } else a, Action.None)
    else
      let i := a.history_list_state.getD 0
      (if i > 0 then { a with history_list_state := some (i - 1) } else a, Action.None)
  else if keybindingsMatches a.keybindings.down key then
    if a.history_records.isEmpty then
      let i := a.startup_list_state.getD 0
      (if i < 1 then { a with startup_list_state := some (i + 1) } else a, Action.None)
    else
      let i := a.history_list_state.getD 0
      (if i < a.history_records.length - 1 then
        { a with history_list_state := some (i + 1) }
      else a, Action.None)
  else if keybindingsMatches a.keybindings.select key then
    if a.history_records.isEmpty then
      match a.startup_list_state with
      | some 0 => (a, Action.NewSearch)
      | _ => (a, Action.NewSearch)
    else
      match a.history_list_state with
      | some i => (a, Action.ContinueFromHistory i)
      | none => (a, Action.NewSearch)
  else if keybindingsMatches a.keybindings.new_search key then
    ({ a with screen := Screen.Search }, Action.None)
  else if keybindingsMatches a.keybindings.quit key then
    ({ a with should_quit := true }, Action.Quit)
  else
    (a, Action.None)

/-- `App::handle_search_input` (the Search screen's own text entry). -/
def App.handle_search_input (a : App) (key : KeyEvent) : App × Action :=
  match key.code with
  | KeyCode.Enter =>
    if !strIsEmpty a.search_input then
      let query := a.search_input
      ({ a with search_input := "" }, Action.Search query)
    else
      (a, Action.None)
  | KeyCode.Char c => ({ a with search_input := strPush a.search_input c }, Action.None)
  | KeyCode.Backspace => ({ a with search_input := strPop a.search_input }, Action.None)
  | KeyCode.Esc =>
    if !a.shows.isEmpty then
      ({ a with search_input := "", screen := Screen.ShowList }, Action.None)
    else
      ({ a with search_input := "", screen := Screen.Startup }, Action.None)
  | _ => (a, Action.None)

/-- `App::handle_show_list_input`. -/
def App.handle_show_list_input (a : App) (key : KeyEvent) : App × Action :=
  if keybindingsMatches a.keybindings.up key then
    let i := a.show_list_state.getD 0
    (if i > 0 then { a with show_list_state := some (i - 1) } else a, Action.None)
  else if keybindingsMatches a.keybindings.down key then
    let i := a.show_list_state.getD 0
    (if i < a.shows.length - 1 then { a with show_list_state := some (i + 1) } else a,
      Action.None)
  else if keybindingsMatches a.keybindings.select key then
    match a.show_list_state with
    | some i => (a, Action.SelectShow i)
    | none => (a, Action.None)
  else if keybindingsMatches a.keybindings.search key then
    ({ a with screen := Screen.Search }, Action.None)
  else if keybindingsMatches a.keybindings.quit key then
    ({ a with should_quit := true }, Action.Quit)
  else
    (a, Action.None)

/-- `App::handle_episode_list_input`: the cursor walks the filtered
view; select re-maps the filtered index to the canonical index by
episode number. -/
def App.handle_episode_list_input (a : App) (key : KeyEvent) : App × Action :=
  let filtered_len := a.get_filtered_episodes.length
  if keybindingsMatches a.keybindings.up key then
    let i := a.episode_list_state.getD 0
    (if i > 0 then { a with episode_list_state := some (i - 1) } else a, Action.None)
  else if keybindingsMatches a.keybindings.down key then
    let i := a.episode_list_state.getD 0
    (if i < filtered_len - 1 then { a with episode_list_state := some (i + 1) } else a,
      Action.None)
  else if keybindingsMatches a.keybindings.select key then
    match a.episode_list_state with
    | some i =>
      let filtered := a.get_filtered_episodes
      match filtered[i]? with
      | some fe =>
        match listPosition (fun e => e.number = fe.number) a.episodes with
        | some original_idx => (a, Action.SelectEpisode original_idx)
        | none => (a, Action.None)
      | none => (a, Action.None)
    | none => (a, Action.None)
  else if keybindingsMatches a.keybindings.filter key then
    ({ a with episode_filter_active := true }, Action.None)
  else if keybindingsMatches a.keybindings.search key then
    ({ a with screen := Screen.Search }, Action.None)
  else if keybindingsMatches a.keybindings.back key then
    if !strIsEmpty a.episode_filter then
      ({ a with episode_filter := "", episode_list_state := some 0 }, Action.None)
    else
      ({ a with screen := Screen.ShowList }, Action.None)
  else if keybindingsMatches a.keybindings.quit key then
    ({ a with should_quit := true }, Action.Quit)
  else
    (a, Action.None)

/-- `App::handle_episode_filter_input`. -/
def App.handle_episode_filter_input (a : App) (key : KeyEvent) : App × Action :=
  match key.code with
  | KeyCode.Enter =>
    let a := { a with episode_filter_active := false }
    (if !a.get_filtered_episodes.isEmpty then { a with episode_list_state := some 0 } else a,
      Action.None)
  | KeyCode.Esc =>
    let a := { a with episode_filter_active := false }
    (if !a.get_filtered_episodes.isEmpty then { a with episode_list_state := some 0 } else a,
      Action.None)
  | KeyCode.Char c =>
    ({ a with episode_filter := strPush a.episode_filter c,
              episode_list_state := some 0 }, Action.None)
  | KeyCode.Backspace =>
    ({ a with episode_filter := strPop a.episode_filter,
              episode_list_state := some 0 }, Action.None)
  | _ => (a, Action.None)

/-- `App::handle_quality_input`. -/
def App.handle_quality_input (a : App) (key : KeyEvent) : App × Action :=
  if keybindingsMatches a.keybindings.up key then
    let i := a.quality_list_state.getD 0
    (if i > 0 then { a with quality_list_state := some (i - 1) } else a, Action.None)
  else if keybindingsMatches a.keybindings.down key then
    let i := a.quality_list_state.getD 0
    (if i < a.sources.length - 1 then { a with quality_list_state := some (i + 1) } else a,
      Action.None)
  else if keybindingsMatches a.keybindings.select key then
    match a.quality_list_state with
    | some i => (a, Action.SelectQuality i)
    | none => (a, Action.None)
  else if keybindingsMatches a.keybindings.back key then
    ({ a with screen := Screen.EpisodeList }, Action.None)
  else if keybindingsMatches a.keybindings.quit key then
    ({ a with should_quit := true }, Action.Quit)
  else
    (a, Action.None)

/-- `App::handle_playback_input`: the option list drives both the
cursor bound and the index-to-action mapping. -/
def App.handle_playback_input (a : App) (key : KeyEvent) : App × Action :=
  let options := a.get_playback_options
  if keybindingsMatches a.keybindings.up key then
    let i := a.playback_list_state.getD 0
    (if i > 0 then { a with playback_list_state := some (i - 1) } else a, Action.None)
  else if keybindingsMatches a.keybindings.down key then
    let i := a.playback_list_state.getD 0
    (if i < options.length - 1 then { a with playback_list_state := some (i + 1) } else a,
      Action.None)
  else if keybindingsMatches a.keybindings.select key then
    match a.playback_list_state with
    | some i =>
      match options[i]? with
      | some opt =>
        if opt = "Next episode" then (a, Action.Next)
        else if opt = "Replay" then (a, Action.Replay)
        else if opt = "Previous episode" then (a, Action.Previous)
        else if opt = "Select episode" then (a, Action.BackToEpisodes)
        else if opt = "Quit" then ({ a with should_quit := true }, Action.Quit)
        else (a, Action.None)
      | none => (a, Action.None)
    | none => (a, Action.None)
  else if keybindingsMatches a.keybindings.next key then
    (a, Action.Next)
  else if keybindingsMatches a.keybindings.previous key then
    (a, Action.Previous)
  else if keybindingsMatches a.keybindings.replay key then
    (a, Action.Replay)
  else if keybindingsMatches a.keybindings.episodes key then
    (a, Action.BackToEpisodes)
  else if keybindingsMatches a.keybindings.quit key then
    ({ a with should_quit := true }, Action.Quit)
  else
    (a, Action.None)

/-- `App::handle_batch_input`: All stages a confirmation, Range enters
range-input mode, Single is emitted directly. -/
def App.handle_batch_input (a : App) (key : KeyEvent) : App × Action :=
  if keybindingsMatches a.keybindings.up key then
    let i := a.batch_list_state.getD 0
    (if i > 0 then { a with batch_list_state := some (i - 1) } else a, Action.None)
  else if keybindingsMatches a.keybindings.down key then
    let i := a.batch_list_state.getD 0
    (if i < 2 then { a with batch_list_state := some (i + 1) } else a, Action.None)
  else if keybindingsMatches a.keybindings.select key then
    match a.batch_list_state with
    | some 0 =>
      ({ a with pending_batch_action := some Action.BatchAll, batch_confirm_mode := true },
        Action.None)
    | some 1 =>
      ({ a with range_input_mode := true, range_input := "" }, Action.None)
    | some 2 => (a, Action.BatchSingle)
    | _ => (a, Action.None)
  else if keybindingsMatches a.keybindings.back key then
    ({ a with screen := Screen.EpisodeList }, Action.None)
  else if keybindingsMatches a.keybindings.quit key then
    ({ a with should_quit := true }, Action.Quit)
  else
    (a, Action.None)

/-- The parse step of `App::handle_range_input` on Enter: the buffer
split on `-` must give exactly two parts, each parsing (after trim) as
an `i64`. -/
def parseRange (s : String) : Option (Int × Int) :=
  match strSplitOn s '-' with
  | [p0, p1] =>
    match parseI64 (strTrim p0), parseI64 (strTrim p1) with
    | some rstart, some rend => some (rstart, rend)
    | _, _ => none
  | _ => none

/-- `iter().map(|e| e.number).max().unwrap_or(d)`. -/
def listMaxD (l : List Int) (d : Int) : Int :=
  match l.max? with
  | some m => m
  | none => d

/-- `iter().map(|e| e.number).min().unwrap_or(d)`. -/
def listMinD (l : List Int) (d : Int) : Int :=
  match l.min? with
  | some m => m
  | none => d

/-- `App::handle_range_input`. -/
def App.handle_range_input (a : App) (key : KeyEvent) : App × Action :=
  match key.code with
  | KeyCode.Enter =>
    match parseRange a.range_input with
    | some (rstart, rend) =>
      if rstart > rend then
        (a.set_error "Invalid range: start must be <= end", Action.None)
      else if rstart < 1 then
        (a.set_error "Invalid range: start must be >= 1", Action.None)
      else
        let max_episode := listMaxD (a.episodes.map (fun e => e.number)) 0
        let min_episode := listMinD (a.episodes.map (fun e => e.number)) 1
        if rstart > max_episode ∨ rend > max_episode then
          (a.set_error ("Invalid range: episodes only go up to " ++ toString max_episode),
            Action.None)
        else if rstart < min_episode then
          (a.set_error ("Invalid range: episodes start at " ++ toString min_episode),
            Action.None)
        else
          ({ a with range_input_mode := false,
                    pending_batch_action := some (Action.BatchRange rstart rend),
                    batch_confirm_mode := true }, Action.None)
    | none =>
      (a.set_error "Invalid range format. Use: start-end (e.g., 1-12)", Action.None)
  | KeyCode.Char c =>
    if c.isDigit ∨ c = '-' then
      ({ a with range_input := strPush a.range_input c }, Action.None)
    else
      (a, Action.None)
  | KeyCode.Backspace => ({ a with range_input := strPop a.range_input }, Action.None)
  | KeyCode.Esc =>
    ({ a with range_input_mode := false, range_input := "" }, Action.None)
  | _ => (a, Action.None)

/-- `App::handle_batch_confirm`: affirmative consumes the pending batch
action and emits it; negative discards it. -/
def App.handle_batch_confirm (a : App) (key : KeyEvent) : App × Action :=
  match key.code with
  | KeyCode.Char 'y' | KeyCode.Char 'Y' | KeyCode.Enter =>
    let a := { a with batch_confirm_mode := false }
    match a.pending_batch_action with
    | some act => ({ a with pending_batch_action := none }, act)
    | none => (a, Action.None)
  | KeyCode.Char 'n' | KeyCode.Char 'N' | KeyCode.Esc =>
    ({ a with batch_confirm_mode := false, pending_batch_action := none }, Action.None)
  | _ => (a, Action.None)

/-- `App::handle_input`: the precedence hierarchy of the input router. -/
def App.handle_input (a : App) (key : KeyEvent) : App × Action :=
  if key.modifiers.ctrl ∧ (key.code = KeyCode.Char 'c' ∨ key.code = KeyCode.Char 'q') then
    ({ a with should_quit := true }, Action.Quit)
  else if a.show_help then
    if key.code = KeyCode.Esc ∨ keybindingsMatches a.keybindings.help key
        ∨ keybindingsMatches a.keybindings.quit key then
      ({ a with show_help := false }, Action.None)
    else
      (a, Action.None)
  else if keybindingsMatches a.keybindings.help key then
    ({ a with show_help := true }, Action.None)
  else if a.range_input_mode then
    a.handle_range_input key
  else if a.batch_confirm_mode then
    a.handle_batch_confirm key
  else if a.search_focused then
    a.handle_search_bar_input key
  else if a.episode_filter_active then
    a.handle_episode_filter_input key
  else if keybindingsMatches a.keybindings.toggle_focus key then
    let newFocus := match a.focus with
      | Focus.Sidebar => Focus.Main
      | Focus.Main => Focus.Sidebar
    let a := { a with focus := newFocus }
    if a.focus = Focus.Sidebar ∧ a.history_list_state = none
        ∧ ¬a.history_records.isEmpty then
      ({ a with history_list_state := some 0 }, Action.None)
    else
      (a, Action.None)
  else if keybindingsMatches a.keybindings.search key then
    ({ a with search_focused := true }, Action.None)
  else if a.focus = Focus.Sidebar then
    a.handle_sidebar_input key
  else
    match a.screen with
    | Screen.Startup => a.handle_startup_input key
    | Screen.Search => a.handle_search_input key
    | Screen.ShowList => a.handle_show_list_input key
    | Screen.EpisodeList => a.handle_episode_list_input key
    | Screen.QualitySelect => a.handle_quality_input key
    | Screen.Playback => a.handle_playback_input key
    | Screen.BatchSelect => a.handle_batch_input key
    | Screen.Loading =>
      if keybindingsMatches a.keybindings.quit key then
        ({ a with should_quit := true }, Action.Quit)
      else
        (a, Action.None)

/-! ### Quality selector (`main::choose_stream`) -/

/-- Stable descending insertion by `quality`; equal-quality elements
keep their original relative order, exactly as Rust's stable
`sort_by(|a, b| b.quality.cmp(&a.quality))`. -/
def insertDescByQuality (x : StreamSource) : List StreamSource → List StreamSource
  | [] => [x]
  | y :: ys =>
    if y.quality > x.quality then y :: insertDescByQuality x ys
    else x :: y :: ys

/-- The stable descending sort of `choose_stream`. -/
def sortDescByQuality : List StreamSource → List StreamSource
  | [] => []
  | x :: xs => insertDescByQuality x (sortDescByQuality xs)

/-- `Iterator::min_by_key` on a non-empty list: the first element with
minimal key. -/
def minByKeyFold (f : StreamSource → Nat) (x : StreamSource) (xs : List StreamSource) :
    StreamSource :=
  xs.foldl (fun best y => if f y < f best then y else best) x

/-- `main::choose_stream`: deterministic quality selection. -/
def choose_stream (sources : List StreamSource) (quality : String) :
    Except String StreamSource :=
  match sources with
  | [] => Except.error "No sources available"
  | s0 :: rest =>
    if rest.isEmpty then Except.ok s0
    else
      let all := s0 :: rest
      let known_quality := all.filter (fun s => s.quality > 0)
      let unknown_quality := all.filter (fun s => s.quality = 0)
      let sorted := sortDescByQuality known_quality
      let q := strToLower quality
      if q = "best" then
        match sorted.head? with
        | some s => Except.ok s
        | none =>
          match unknown_quality.head? with
          | some s => Except.ok s
          | none => Except.ok s0
      else if q = "worst" then
        match sorted.getLast? with
        | some s => Except.ok s
        | none =>
          match unknown_quality.head? with
          | some s => Except.ok s
          | none => Except.ok s0
      else
        match parseI32 q with
        | some target_quality =>
          match sorted.find? (fun s => s.quality = target_quality) with
          | some s => Except.ok s
          | none =>
            match sorted with
            | sh :: st =>
              Except.ok (minByKeyFold (fun s => (s.quality - target_quality).natAbs) sh st)
            | [] => Except.ok s0
        | none => Except.ok s0

/-! ### History resume (`main::run_app`, `Action::ContinueFromHistory` arm) -/

/-- The resume-episode choice after a history fetch: episode `N+1` if
present, else `N`, else the head of the fetched list.  The source ends
with `unwrap_or_else(|| episodes[0].clone())`, which indexes into the
list unconditionally; `none` here marks exactly the inputs on which
that indexing panics. -/
def resumeEpisode (episodes : List Episode) (episode_num : Int) : Option Episode :=
  match episodes.find? (fun e => e.number = episode_num + 1) with
  | some e => some e
  | none =>
    match episodes.find? (fun e => e.number = episode_num) with
    | some e => some e
    | none => episodes.head?

/-- The resume computation of the `ContinueFromHistory` arm: the chosen
episode together with the cursor index looked up in the canonical list
(`position(..).unwrap_or(0)`). -/
def continueFromHistorySelect (episodes : List Episode) (episode_num : Int) :
    Option (Episode × Nat) :=
  match resumeEpisode episodes episode_num with
  | some e =>
    match listPosition (fun x => x.number = e.number) episodes with
    | some idx => some (e, idx)
    | none => some (e, 0)
  | none => none

/-! ### Derived definitions used by the verification -/

/-- The string-to-action mapping of the Playback select branch in
`handle_playback_input` (the i-th rendered option maps to the i-th
action). -/
def playbackOptionAction (a : App) (opt : String) : App × Action :=
  if opt = "Next episode" then (a, Action.Next)
  else if opt = "Replay" then (a, Action.Replay)
  else if opt = "Previous episode" then (a, Action.Previous)
  else if opt = "Select episode" then (a, Action.BackToEpisodes)
  else if opt = "Quit" then ({ a with should_quit := true }, Action.Quit)
  else (a, Action.None)

/-- How many of the four mutually-exclusive input-mode flags are set. -/
def modeFlagCount (a : App) : Nat :=
  (if a.search_focused then 1 else 0) + (if a.episode_filter_active then 1 else 0) +
    (if a.range_input_mode then 1 else 0) + (if a.batch_confirm_mode then 1 else 0)

/-- The pending batch action is only ever a staged `BatchAll` or
`BatchRange` (what `handle_batch_input` and `handle_range_input`
store). -/
def PendingWellFormed (a : App) : Prop :=
  ∀ act, a.pending_batch_action = some act →
    act = Action.BatchAll ∨ ∃ rs re, act = Action.BatchRange rs re

/-- States reachable from the program's initial state (`App::new`
followed by the `set_history` seeding in `main`) by key events routed
through `handle_input`. -/
inductive Reachable : App → Prop where
  | init (mode quality : String) (download_mode : Bool) (kb : Keybindings)
      (colors : ColorScheme) (records : List (String × String × Int × String)) :
      Reachable ((App.new mode quality download_mode kb colors).set_history records)
  | step (a : App) (k : KeyEvent) : Reachable a → Reachable (a.handle_input k).1

/-- Run a list of key events through the router, returning the final
state and the last emitted action. -/
def runKeys (a : App) (ks : List KeyEvent) : App × Action :=
  ks.foldl (fun p k => p.1.handle_input k) (a, Action.None)

/-- The source list of §8's quality-selector examples: qualities
`[0, 480, 720, 1080]`. -/
def sampleSources : List StreamSource :=
  [⟨0, "u0"⟩, ⟨480, "u480"⟩, ⟨720, "u720"⟩, ⟨1080, "u1080"⟩]

/-- Episodes numbered 1..24. -/
def episodes1to24 : List Episode :=
  (List.range 24).map (fun i => ⟨toString (i + 1), (i : Int) + 1, none⟩)

/-- The program's initial state with default configuration and no
persisted history. -/
def initialApp : App :=
  (App.new "sub" "best" false defaultKeybindings defaultColorScheme).set_history []

/-- The initial state with the search bar focused (reached by pressing
the search binding). -/
def searchFocusedApp : App := { initialApp with search_focused := true }

/-- A download-mode state on the BatchSelect screen over episodes
1..24 with the cursor on option 0 (All). -/
def batchSelectApp : App :=
  { (App.new "sub" "best" true defaultKeybindings defaultColorScheme) with
    screen := Screen.BatchSelect,
    episodes := episodes1to24,
    current_episode := some ⟨"1", 1, none⟩,
    batch_list_state := some 0 }

/-- A state in range-input mode over episodes 1..24. -/
def rangeInputApp (buffer : String) : App :=
  { batchSelectApp with range_input_mode := true, range_input := buffer }

/-- A Playback-screen state with no current episode. -/
def playbackNoCurrentApp : App :=
  { initialApp with
    screen := Screen.Playback,
    episodes := episodes1to24,
    playback_list_state := some 0 }

/-- A Playback-screen state whose episode list has a numbering gap:
episodes 1 and 3, currently on episode 1. -/
def playbackGapApp : App :=
  { initialApp with
    screen := Screen.Playback,
    episodes := [⟨"e1", 1, none⟩, ⟨"e3", 3, none⟩],
    current_episode := some ⟨"e1", 1, none⟩,
    playback_list_state := some 0 }

/-- The key sequence [search-focus key, "naruto", Enter]. -/
def searchNarutoKeys : List KeyEvent :=
  [plainKey (KeyCode.Char '/')] ++
    ("naruto".data.map (fun c => plainKey (KeyCode.Char c))) ++
    [plainKey KeyCode.Enter]

/-! ### List helper lemmas -/

theorem head?_mem {α : Type} {l : List α} {a : α} (h : l.head? = some a) : a ∈ l := by
  cases l with
  | nil => simp at h
  | cons x xs => simp only [List.head?_cons, Option.some.injEq] at h; simp [h]

theorem getLast?_mem {α : Type} {l : List α} {a : α} (h : l.getLast? = some a) : a ∈ l := by
  induction l with
  | nil => simp at h
  | cons x xs ih =>
    cases xs with
    | nil => simp only [List.getLast?_singleton, Option.some.injEq] at h; simp [h]
    | cons y ys =>
      rw [List.getLast?_cons_cons] at h
      exact List.mem_cons_of_mem x (ih h)

theorem listPosition_spec {α : Type} (p : α → Bool) (l : List α) :
    (∀ i, listPosition p l = some i →
      ∃ a, l[i]? = some a ∧ p a = true ∧
        ∀ j, j < i → ∀ b, l[j]? = some b → p b = false) ∧
    (listPosition p l = none → ∀ a ∈ l, p a = false) := by
  induction l with
  | nil => simp [listPosition]
  | cons x xs ih =>
    constructor
    · intro i hi
      simp only [listPosition] at hi
      by_cases hx : p x
      · rw [if_pos hx] at hi
        cases hi
        exact ⟨x, by simp, hx, by omega⟩
      · rw [if_neg hx] at hi
        simp only [Option.map_eq_some'] at hi
        obtain ⟨i', hi', rfl⟩ := hi
        obtain ⟨a, ha, hpa, hfirst⟩ := ih.1 i' hi'
        refine ⟨a, by simpa using ha, hpa, ?_⟩
        intro j hj b hb
        cases j with
        | zero =>
          simp only [List.getElem?_cons_zero, Option.some.injEq] at hb
          subst hb
          exact Bool.not_eq_true _ ▸ (by simpa using hx)
        | succ j' =>
          simp only [List.getElem?_cons_succ] at hb
          exact hfirst j' (by omega) b hb
    · intro h a ha
      simp only [listPosition] at h
      by_cases hx : p x
      · rw [if_pos hx] at h; cases h
      · rw [if_neg hx] at h
        simp only [Option.map_eq_none'] at h
        rcases List.mem_cons.mp ha with rfl | hmem
        · simpa using hx
        · exact ih.2 h a hmem

theorem listPosition_mem_isSome {α : Type} (p : α → Bool) (l : List α) (a : α)
    (ha : a ∈ l) (hpa : p a = true) : ∃ i, listPosition p l = some i := by
  induction l with
  | nil => simp at ha
  | cons x xs ih =>
    simp only [listPosition]
    by_cases hx : p x
    · exact ⟨0, by rw [if_pos hx]⟩
    · rcases List.mem_cons.mp ha with rfl | hmem
      · exact absurd hpa (by simpa using hx)
      · obtain ⟨i, hi⟩ := ih hmem
        exact ⟨i + 1, by rw [if_neg hx, hi]; rfl⟩

/-! ### Sorting lemmas for the quality selector -/

theorem insertDescByQuality_perm (x : StreamSource) (l : List StreamSource) :
    List.Perm (insertDescByQuality x l) (x :: l) := by
  induction l with
  | nil => simp [insertDescByQuality]
  | cons y ys ih =>
    simp only [insertDescByQuality]
    by_cases h : y.quality > x.quality
    · rw [if_pos h]
      exact (ih.cons y).trans (List.Perm.swap x y ys)
    · rw [if_neg h]

theorem sortDescByQuality_perm (l : List StreamSource) :
    List.Perm (sortDescByQuality l) l := by
  induction l with
  | nil => simp [sortDescByQuality]
  | cons x xs ih =>
    simp only [sortDescByQuality]
    exact (insertDescByQuality_perm x (sortDescByQuality xs)).trans (ih.cons x)

theorem mem_sortDescByQuality {l : List StreamSource} {s : StreamSource} :
    s ∈ sortDescByQuality l ↔ s ∈ l :=
  (sortDescByQuality_perm l).mem_iff

theorem insertDescByQuality_pairwise (x : StreamSource) (l : List StreamSource)
    (h : l.Pairwise (fun a b => b.quality ≤ a.quality)) :
    (insertDescByQuality x l).Pairwise (fun a b => b.quality ≤ a.quality) := by
  induction l with
  | nil => simp [insertDescByQuality]
  | cons y ys ih =>
    simp only [insertDescByQuality]
    rcases List.pairwise_cons.mp h with ⟨hy, hys⟩
    by_cases hq : y.quality > x.quality
    · rw [if_pos hq]
      refine List.pairwise_cons.mpr ⟨?_, ih hys⟩
      intro z hz
      have hz2 := (insertDescByQuality_perm x ys).mem_iff.mp hz
      rcases List.mem_cons.mp hz2 with rfl | hmem
      · omega
      · exact hy z hmem
    · rw [if_neg hq]
      refine List.pairwise_cons.mpr ⟨?_, h⟩
      intro z hz
      rcases List.mem_cons.mp hz with rfl | hmem
      · omega
      · have := hy z hmem
        omega

theorem sortDescByQuality_pairwise (l : List StreamSource) :
    (sortDescByQuality l).Pairwise (fun a b => b.quality ≤ a.quality) := by
  induction l with
  | nil => simp [sortDescByQuality]
  | cons x xs ih =>
    exact insertDescByQuality_pairwise x (sortDescByQuality xs) ih

/-! ### `min_by_key` lemmas -/

theorem minByKeyFold_split (f : StreamSource → Nat) (xs : List StreamSource)
    (x : StreamSource) :
    (minByKeyFold f x xs = x ∧ ∀ y ∈ xs, f x ≤ f y) ∨
    (∃ l1 l2, xs = l1 ++ minByKeyFold f x xs :: l2 ∧
      f (minByKeyFold f x xs) < f x ∧
      (∀ y ∈ l1, f (minByKeyFold f x xs) < f y) ∧
      (∀ y ∈ l2, f (minByKeyFold f x xs) ≤ f y)) := by
  induction xs generalizing x with
  | nil => left; exact ⟨rfl, by simp⟩
  | cons y ys ih =>
    have hstep : minByKeyFold f x (y :: ys) =
        minByKeyFold f (if f y < f x then y else x) ys := rfl
    rw [hstep]
    by_cases hy : f y < f x
    · rw [if_pos hy]
      rcases ih y with ⟨heq, hmin⟩ | ⟨l1, l2, hsplit, hlt, hl1, hl2⟩
      · right
        rw [heq]
        exact ⟨[], ys, by simp, hy, by simp, hmin⟩
      · right
        refine ⟨y :: l1, l2, ?_, by omega, ?_, hl2⟩
        · rw [List.cons_append]
          exact congrArg (List.cons y) hsplit
        · intro z hz
          rcases List.mem_cons.mp hz with rfl | hm
          · omega
          · exact hl1 z hm
    · rw [if_neg hy]
      rcases ih x with ⟨heq, hmin⟩ | ⟨l1, l2, hsplit, hlt, hl1, hl2⟩
      · left
        refine ⟨heq, ?_⟩
        intro z hz
        rcases List.mem_cons.mp hz with rfl | hm
        · omega
        · exact hmin z hm
      · right
        refine ⟨y :: l1, l2, ?_, hlt, ?_, hl2⟩
        · rw [List.cons_append]
          exact congrArg (List.cons y) hsplit
        · intro z hz
          rcases List.mem_cons.mp hz with rfl | hm
          · omega
          · exact hl1 z hm

theorem minByKeyFold_mem (f : StreamSource → Nat) (xs : List StreamSource)
    (x : StreamSource) : minByKeyFold f x xs ∈ x :: xs := by
  induction xs generalizing x with
  | nil => simp [minByKeyFold]
  | cons y ys ih =>
    have hstep : minByKeyFold f x (y :: ys) =
        minByKeyFold f (if f y < f x then y else x) ys := rfl
    rw [hstep]
    by_cases hy : f y < f x
    · rw [if_pos hy]
      rcases List.mem_cons.mp (ih y) with h | h
      · rw [h]; exact List.mem_cons_of_mem x (List.mem_cons_self y ys)
      · exact List.mem_cons_of_mem x (List.mem_cons_of_mem y h)
    · rw [if_neg hy]
      rcases List.mem_cons.mp (ih x) with h | h
      · rw [h]; exact List.mem_cons_self x (y :: ys)
      · exact List.mem_cons_of_mem x (List.mem_cons_of_mem y h)

theorem minByKeyFold_min (f : StreamSource → Nat) (xs : List StreamSource)
    (x : StreamSource) : ∀ y ∈ x :: xs, f (minByKeyFold f x xs) ≤ f y := by
  rcases minByKeyFold_split f xs x with ⟨heq, hmin⟩ | ⟨l1, l2, hsplit, hlt, hl1, hl2⟩
  · intro y hy
    rcases List.mem_cons.mp hy with rfl | hmem
    · rw [heq]
    · rw [heq]; exact hmin y hmem
  · intro y hy
    rcases List.mem_cons.mp hy with rfl | hmem
    · omega
    · rw [hsplit] at hmem
      rcases List.mem_append.mp hmem with h1 | h2
      · have := hl1 y h1; omega
      · rcases List.mem_cons.mp h2 with heq2 | hmem2
        · rw [heq2]
        · exact hl2 y hmem2

/-! ### Claim C9: the orchestration loop panics on an empty episode fetch -/

/-- Claim C9 (code_bug evidence): the `ContinueFromHistory` arm of
`run_app` ends its resume computation with
`unwrap_or_else(|| episodes[0].clone())`; when `fetch_episodes`
returns an empty list both `find` calls and the fallback index have
nothing to return, so the code indexes `episodes[0]` out of bounds and
panics.  `continueFromHistorySelect` returns `none` exactly on those
inputs, and it does so here, contradicting the claim that every
recoverable error becomes a transient message. -/
theorem c9_continue_from_history_panics_on_empty_fetch :
    continueFromHistorySelect [] 5 = none := rfl

/-! ### Claim C4: the quality selector is total on non-empty input -/

/-- Claim C4: for every quality token and every non-empty source list,
`choose_stream` returns `Ok` with an element of the input list, and a
single-element list short-circuits to that element for every token. -/
theorem c4_choose_stream_total (sources : List StreamSource) (tok : String)
    (h : sources ≠ []) :
    ∃ r, choose_stream sources tok = Except.ok r ∧ r ∈ sources ∧
      (sources.length = 1 → sources.head? = some r) := by
  cases sources with
  | nil => exact absurd rfl h
  | cons s0 rest =>
    by_cases hre : rest.isEmpty
    · refine ⟨s0, ?_, List.mem_cons_self _ _, fun _ => rfl⟩
      simp only [choose_stream, if_pos hre]
    · have hlen : (s0 :: rest).length = 1 → False := by
        intro hl
        cases rest with
        | nil => simp at hre
        | cons a l => simp at hl
      simp only [choose_stream, if_neg hre]
      by_cases hqb : strToLower tok = "best"
      · rw [if_pos hqb]
        cases hh : (sortDescByQuality ((s0 :: rest).filter
            (fun s => decide (s.quality > 0)))).head? with
        | some sx =>
          exact ⟨sx, rfl, List.mem_of_mem_filter (mem_sortDescByQuality.mp (head?_mem hh)),
            fun hl => absurd hl (fun hl => hlen hl)⟩
        | none =>
          cases hu : ((s0 :: rest).filter (fun s => decide (s.quality = 0))).head? with
          | some ux =>
            exact ⟨ux, rfl, List.mem_of_mem_filter (head?_mem hu),
              fun hl => absurd hl (fun hl => hlen hl)⟩
          | none =>
            exact ⟨s0, rfl, List.mem_cons_self _ _,
              fun hl => absurd hl (fun hl => hlen hl)⟩
      · rw [if_neg hqb]
        by_cases hqw : strToLower tok = "worst"
        · rw [if_pos hqw]
          cases hh : (sortDescByQuality ((s0 :: rest).filter
              (fun s => decide (s.quality > 0)))).getLast? with
          | some sx =>
            exact ⟨sx, rfl, List.mem_of_mem_filter (mem_sortDescByQuality.mp (getLast?_mem hh)),
              fun hl => absurd hl (fun hl => hlen hl)⟩
          | none =>
            cases hu : ((s0 :: rest).filter (fun s => decide (s.quality = 0))).head? with
            | some ux =>
              exact ⟨ux, rfl, List.mem_of_mem_filter (head?_mem hu),
                fun hl => absurd hl (fun hl => hlen hl)⟩
            | none =>
              exact ⟨s0, rfl, List.mem_cons_self _ _,
                fun hl => absurd hl (fun hl => hlen hl)⟩
        · rw [if_neg hqw]
          split
          · rename_i target hp
            split
            · rename_i sx hfind
              exact ⟨sx, rfl,
                List.mem_of_mem_filter (mem_sortDescByQuality.mp
                  (List.mem_of_find?_eq_some hfind)),
                fun hl => absurd hl (fun hl => hlen hl)⟩
            · rename_i hfind
              split
              · rename_i sh st hsorted
                refine ⟨minByKeyFold (fun s => (s.quality - target).natAbs) sh st, rfl, ?_,
                  fun hl => absurd hl (fun hl => hlen hl)⟩
                have hm := minByKeyFold_mem (fun s => (s.quality - target).natAbs) st sh
                rw [← hsorted] at hm
                exact List.mem_of_mem_filter (mem_sortDescByQuality.mp hm)
              · exact ⟨s0, rfl, List.mem_cons_self _ _,
                  fun hl => absurd hl (fun hl => hlen hl)⟩
          · exact ⟨s0, rfl, List.mem_cons_self _ _,
              fun hl => absurd hl (fun hl => hlen hl)⟩

/-- Witness for C4 at a concrete input. -/
theorem c4_choose_stream_total_witness :
    ∃ r, choose_stream [⟨720, "u720"⟩, ⟨1080, "u1080"⟩] "garbage" = Except.ok r ∧
      r ∈ [(⟨720, "u720"⟩ : StreamSource), ⟨1080, "u1080"⟩] ∧
      ([(⟨720, "u720"⟩ : StreamSource), ⟨1080, "u1080"⟩].length = 1 →
        [(⟨720, "u720"⟩ : StreamSource), ⟨1080, "u1080"⟩].head? = some r) :=
  c4_choose_stream_total [⟨720, "u720"⟩, ⟨1080, "u1080"⟩] "garbage" (by decide)

/-! ### Claim C8: resume selection after a history fetch -/

/-- Claim C8: after a successful episode fetch for a history record at
episode `N`, the resume logic selects the episode numbered `N + 1` if
one exists, else the episode numbered `N` if it exists, else the first
episode of the fetched list; the episode cursor is set to the index of
the first episode in the canonical list carrying the selected number. -/
theorem c8_continue_from_history_selects_successor (es : List Episode) (N : Int)
    (h : es ≠ []) :
    ∃ e idx, continueFromHistorySelect es N = some (e, idx) ∧ e ∈ es ∧
      ((∃ x ∈ es, x.number = N + 1) → e.number = N + 1) ∧
      ((¬∃ x ∈ es, x.number = N + 1) → (∃ x ∈ es, x.number = N) → e.number = N) ∧
      ((¬∃ x ∈ es, x.number = N + 1) → (¬∃ x ∈ es, x.number = N) → es.head? = some e) ∧
      ∃ f, es[idx]? = some f ∧ f.number = e.number ∧
        ∀ j, j < idx → ∀ g, es[j]? = some g → g.number ≠ e.number := by
  have main : ∃ e, resumeEpisode es N = some e ∧ e ∈ es ∧
      ((∃ x ∈ es, x.number = N + 1) → e.number = N + 1) ∧
      ((¬∃ x ∈ es, x.number = N + 1) → (∃ x ∈ es, x.number = N) → e.number = N) ∧
      ((¬∃ x ∈ es, x.number = N + 1) → (¬∃ x ∈ es, x.number = N) → es.head? = some e) := by
    simp only [resumeEpisode]
    cases hf1 : es.find? (fun e => decide (e.number = N + 1)) with
    | some e1 =>
      refine ⟨e1, rfl, List.mem_of_find?_eq_some hf1, fun _ => ?_, fun hno _ => ?_, fun hno _ => ?_⟩
      · have := List.find?_some hf1
        simpa using this
      all_goals
        exact absurd ⟨e1, List.mem_of_find?_eq_some hf1, by simpa using List.find?_some hf1⟩ hno
    | none =>
      have hno1 : ¬∃ x ∈ es, x.number = N + 1 := by
        rintro ⟨x, hx, hxn⟩
        have := List.find?_eq_none.mp hf1 x hx
        simp [hxn] at this
      cases hf2 : es.find? (fun e => decide (e.number = N)) with
      | some e2 =>
        refine ⟨e2, rfl, List.mem_of_find?_eq_some hf2, fun hex => absurd hex hno1,
          fun _ _ => ?_, fun _ hno2 => ?_⟩
        · have := List.find?_some hf2
          simpa using this
        · exact absurd ⟨e2, List.mem_of_find?_eq_some hf2, by simpa using List.find?_some hf2⟩ hno2
      | none =>
        cases es with
        | nil => exact absurd rfl h
        | cons e0 es' =>
          exact ⟨e0, rfl, List.mem_cons_self _ _, fun hex => absurd hex hno1,
            fun _ hex => absurd hex (by
              rintro ⟨x, hx, hxn⟩
              have := List.find?_eq_none.mp hf2 x hx
              simp [hxn] at this), fun _ _ => rfl⟩
  obtain ⟨e, hres, hmem, hc1, hc2, hc3⟩ := main
  obtain ⟨idx, hidx⟩ :=
    listPosition_mem_isSome (fun x => decide (x.number = e.number)) es e hmem (by simp)
  obtain ⟨f, hf, hpf, hfirst⟩ := (listPosition_spec (fun x => decide (x.number = e.number)) es).1 idx hidx
  refine ⟨e, idx, ?_, hmem, hc1, hc2, hc3, f, hf, by simpa using hpf, ?_⟩
  · simp only [continueFromHistorySelect, hres, hidx]
  · intro j hj g hg
    have := hfirst j hj g hg
    simpa using this

/-- Witness for C8 at a concrete input. -/
theorem c8_continue_from_history_selects_successor_witness :
    ∃ e idx, continueFromHistorySelect
        [⟨"e1", 1, none⟩, ⟨"e2", 2, none⟩, ⟨"e3", 3, none⟩] 1 = some (e, idx) ∧
      e ∈ [(⟨"e1", 1, none⟩ : Episode), ⟨"e2", 2, none⟩, ⟨"e3", 3, none⟩] ∧
      ((∃ x ∈ [(⟨"e1", 1, none⟩ : Episode), ⟨"e2", 2, none⟩, ⟨"e3", 3, none⟩],
          x.number = 1 + 1) → e.number = 1 + 1) ∧
      ((¬∃ x ∈ [(⟨"e1", 1, none⟩ : Episode), ⟨"e2", 2, none⟩, ⟨"e3", 3, none⟩],
          x.number = 1 + 1) →
        (∃ x ∈ [(⟨"e1", 1, none⟩ : Episode), ⟨"e2", 2, none⟩, ⟨"e3", 3, none⟩],
          x.number = 1) → e.number = 1) ∧
      ((¬∃ x ∈ [(⟨"e1", 1, none⟩ : Episode), ⟨"e2", 2, none⟩, ⟨"e3", 3, none⟩],
          x.number = 1 + 1) →
        (¬∃ x ∈ [(⟨"e1", 1, none⟩ : Episode), ⟨"e2", 2, none⟩, ⟨"e3", 3, none⟩],
          x.number = 1) →
        [(⟨"e1", 1, none⟩ : Episode), ⟨"e2", 2, none⟩, ⟨"e3", 3, none⟩].head? = some e) ∧
      ∃ f, [(⟨"e1", 1, none⟩ : Episode), ⟨"e2", 2, none⟩, ⟨"e3", 3, none⟩][idx]? = some f ∧
        f.number = e.number ∧
        ∀ j, j < idx → ∀ g,
          [(⟨"e1", 1, none⟩ : Episode), ⟨"e2", 2, none⟩, ⟨"e3", 3, none⟩][j]? = some g →
            g.number ≠ e.number :=
  c8_continue_from_history_selects_successor
    [⟨"e1", 1, none⟩, ⟨"e2", 2, none⟩, ⟨"e3", 3, none⟩] 1 (by decide)

/-! ### Claim C3: numeric quality tokens -/

/-- Claim C3: for a numeric token `N` on a multi-element source list,
`choose_stream` returns the known-quality source with quality exactly
`N` when one exists; otherwise, when any known-quality source exists,
it returns a known-quality source minimizing `|quality - N|`, breaking
distance ties in favor of the higher quality; otherwise it returns the
first source.  On qualities `[0, 480, 720, 1080]`, token `"800"`
returns the 720 source and `"720"` the exact 720 entry. -/
theorem c3_numeric_quality_selection :
    (∀ (sources : List StreamSource) (tok : String) (N : Int),
      1 < sources.length →
      strToLower tok ≠ "best" → strToLower tok ≠ "worst" →
      parseI32 (strToLower tok) = some N →
      ∃ r, choose_stream sources tok = Except.ok r ∧ r ∈ sources ∧
        ((∃ s ∈ sources, s.quality > 0 ∧ s.quality = N) → r.quality = N ∧ r.quality > 0) ∧
        ((¬∃ s ∈ sources, s.quality > 0 ∧ s.quality = N) →
          (∃ s ∈ sources, s.quality > 0) →
          r.quality > 0 ∧
          (∀ s ∈ sources, s.quality > 0 →
            (r.quality - N).natAbs ≤ (s.quality - N).natAbs) ∧
          (∀ s ∈ sources, s.quality > 0 →
            (s.quality - N).natAbs = (r.quality - N).natAbs → s.quality ≤ r.quality)) ∧
        ((¬∃ s ∈ sources, s.quality > 0) → sources.head? = some r)) ∧
    choose_stream sampleSources "800" = Except.ok ⟨720, "u720"⟩ ∧
    choose_stream sampleSources "720" = Except.ok ⟨720, "u720"⟩ := by
  refine ⟨?_, rfl, rfl⟩
  intro sources tok N hlen hb hw hp
  cases sources with
  | nil => simp at hlen
  | cons s0 rest =>
    have hre : rest.isEmpty = false := by
      cases rest with
      | nil => simp at hlen
      | cons a l => rfl
    have hknown : ∀ s, s ∈ (s0 :: rest).filter (fun s => decide (s.quality > 0)) ↔
        s ∈ s0 :: rest ∧ s.quality > 0 := by
      intro s
      rw [List.mem_filter]
      simp
    simp only [choose_stream, hre, Bool.false_eq_true, if_false, if_neg hb, if_neg hw, hp]
    split
    · rename_i r hfind
      have hrs : r ∈ sortDescByQuality ((s0 :: rest).filter (fun s => decide (s.quality > 0))) :=
        List.mem_of_find?_eq_some hfind
      have hrk := (hknown r).mp (mem_sortDescByQuality.mp hrs)
      have hrq : r.quality = N := by simpa using List.find?_some hfind
      refine ⟨r, rfl, hrk.1, fun _ => ⟨hrq, hrk.2⟩, ?_, ?_⟩
      · intro hno _
        exact absurd ⟨r, hrk.1, hrk.2, hrq⟩ hno
      · intro hno
        exact absurd ⟨r, hrk.1, hrk.2⟩ hno
    · rename_i hfind
      have hnoexact : ¬∃ s ∈ s0 :: rest, s.quality > 0 ∧ s.quality = N := by
        rintro ⟨s, hs, hsq, hsn⟩
        have hsorted : s ∈ sortDescByQuality ((s0 :: rest).filter
            (fun s => decide (s.quality > 0))) :=
          mem_sortDescByQuality.mpr ((hknown s).mpr ⟨hs, hsq⟩)
        have := List.find?_eq_none.mp hfind s hsorted
        simp [hsn] at this
      split
      · rename_i sh st hsorted
        set m := minByKeyFold (fun s => (s.quality - N).natAbs) sh st with hm
        have hmem : m ∈ sh :: st := minByKeyFold_mem _ st sh
        have hmemS : m ∈ sortDescByQuality ((s0 :: rest).filter
            (fun s => decide (s.quality > 0))) := by rw [hsorted]; exact hmem
        have hmk := (hknown m).mp (mem_sortDescByQuality.mp hmemS)
        refine ⟨m, rfl, hmk.1, fun hex => absurd hex hnoexact, fun _ _ => ?_, fun hno => ?_⟩
        · refine ⟨hmk.2, ?_, ?_⟩
          · intro s hs hsq
            have hss : s ∈ sh :: st := by
              rw [← hsorted]
              exact mem_sortDescByQuality.mpr ((hknown s).mpr ⟨hs, hsq⟩)
            have hmin := minByKeyFold_min (fun s => (s.quality - N).natAbs) st sh s hss
            rw [← hm] at hmin
            exact hmin
          · intro s hs hsq htie
            have hss : s ∈ sh :: st := by
              rw [← hsorted]
              exact mem_sortDescByQuality.mpr ((hknown s).mpr ⟨hs, hsq⟩)
            have hpair : (sh :: st).Pairwise (fun a b => b.quality ≤ a.quality) := by
              rw [← hsorted]
              exact sortDescByQuality_pairwise _
            rcases minByKeyFold_split (fun s => (s.quality - N).natAbs) st sh with
              ⟨heq, hmin⟩ | ⟨l1, l2, hsplit, hlt, hl1, hl2⟩
            · rw [← hm] at heq
              rcases List.mem_cons.mp hss with rfl | hmem2
              · rw [heq]
              · rw [heq]
                exact (List.pairwise_cons.mp hpair).1 s hmem2
            · rw [← hm] at hsplit hlt hl1 hl2
              rcases List.mem_cons.mp hss with rfl | hmem2
              · exfalso
                rw [htie] at hlt
                omega
              · rw [hsplit] at hmem2
                rcases List.mem_append.mp hmem2 with h1 | h2
                · exfalso
                  have := hl1 s h1
                  omega
                · rcases List.mem_cons.mp h2 with heq2 | hmem3
                  · rw [heq2]
                  · have hsub : (m :: l2).Sublist (sh :: st) := by
                      rw [hsplit]
                      exact (List.sublist_append_right l1 (m :: l2)).cons sh
                    have hpair2 := hpair.sublist hsub
                    exact (List.pairwise_cons.mp hpair2).1 s hmem3
        · exfalso
          exact hno ⟨m, hmk.1, hmk.2⟩
      · rename_i hsorted
        have hkempty : (s0 :: rest).filter (fun s => decide (s.quality > 0)) = [] := by
          have hperm := sortDescByQuality_perm ((s0 :: rest).filter
            (fun s => decide (s.quality > 0)))
          rw [hsorted] at hperm
          exact hperm.symm.eq_nil
        have hnone : ¬∃ s ∈ s0 :: rest, s.quality > 0 := by
          rintro ⟨s, hs, hsq⟩
          have : s ∈ (s0 :: rest).filter (fun s => decide (s.quality > 0)) :=
            (hknown s).mpr ⟨hs, hsq⟩
          rw [hkempty] at this
          simp at this
        exact ⟨s0, rfl, List.mem_cons_self _ _, fun hex => absurd hex hnoexact,
          fun _ hex => absurd hex hnone, fun _ => rfl⟩

/-- Witness for C3 at a concrete input. -/
theorem c3_numeric_quality_selection_witness :
    ∃ r, choose_stream sampleSources "800" = Except.ok r ∧ r ∈ sampleSources ∧
      ((∃ s ∈ sampleSources, s.quality > 0 ∧ s.quality = 800) →
        r.quality = 800 ∧ r.quality > 0) ∧
      ((¬∃ s ∈ sampleSources, s.quality > 0 ∧ s.quality = 800) →
        (∃ s ∈ sampleSources, s.quality > 0) →
        r.quality > 0 ∧
        (∀ s ∈ sampleSources, s.quality > 0 →
          (r.quality - 800).natAbs ≤ (s.quality - 800).natAbs) ∧
        (∀ s ∈ sampleSources, s.quality > 0 →
          (s.quality - 800).natAbs = (r.quality - 800).natAbs → s.quality ≤ r.quality)) ∧
      ((¬∃ s ∈ sampleSources, s.quality > 0) → sampleSources.head? = some r) :=
  c3_numeric_quality_selection.1 sampleSources "800" 800 (by decide) (by decide) (by decide)
    (by decide)

/-! ### Claim C5: the playback option list -/

/-- Claim C5 counterexample: the claim is false on the code in two
ways.  With no current episode the option list is
`["Select episode", "Quit"]`, so it does not always contain
`"Replay"`; and with episodes numbered 1 and 3 while on episode 1 the
list offers `"Next episode"` although no episode numbered 2 exists
(the code tests the position in the list, not episode number
adjacency). -/
theorem c5_playback_options_counterexample :
    ("Replay" ∉ playbackNoCurrentApp.get_playback_options) ∧
    ("Next episode" ∈ playbackGapApp.get_playback_options ∧
      ∀ x ∈ playbackGapApp.episodes, x.number ≠ 1 + 1) := by
  decide

/-- Claim C5 as amended: `"Select episode"` and `"Quit"` are always
offered; `"Replay"` is offered iff a current episode is set;
`"Next episode"`/`"Previous episode"` are offered iff the current
episode's number occurs in the episode list at a position with a
successor (resp. at a positive position); and selecting index `i`
yields exactly the action of the `i`-th entry of the same list used
for rendering. -/
theorem c5_playback_options_amended (a : App) :
    ("Select episode" ∈ a.get_playback_options) ∧
    ("Quit" ∈ a.get_playback_options) ∧
    ("Replay" ∈ a.get_playback_options ↔ a.current_episode ≠ none) ∧
    ("Next episode" ∈ a.get_playback_options ↔
      ∃ ep i, a.current_episode = some ep ∧
        listPosition (fun e => decide (e.number = ep.number)) a.episodes = some i ∧
        i + 1 < a.episodes.length) ∧
    ("Previous episode" ∈ a.get_playback_options ↔
      ∃ ep i, a.current_episode = some ep ∧
        listPosition (fun e => decide (e.number = ep.number)) a.episodes = some i ∧
        0 < i) ∧
    (∀ (k : KeyEvent) (i : Nat) (opt : String),
      keybindingsMatches a.keybindings.up k = false →
      keybindingsMatches a.keybindings.down k = false →
      keybindingsMatches a.keybindings.select k = true →
      a.playback_list_state = some i →
      a.get_playback_options[i]? = some opt →
      a.handle_playback_input k = playbackOptionAction a opt) := by
  have hmap : ∀ (k : KeyEvent) (i : Nat) (opt : String),
      keybindingsMatches a.keybindings.up k = false →
      keybindingsMatches a.keybindings.down k = false →
      keybindingsMatches a.keybindings.select k = true →
      a.playback_list_state = some i →
      a.get_playback_options[i]? = some opt →
      a.handle_playback_input k = playbackOptionAction a opt := by
    intro k i opt hup hdown hsel hst hopt
    simp only [App.handle_playback_input, hup, hdown, hsel, Bool.false_eq_true, if_false,
      if_true, hst, hopt]
    rw [← hst]
    rfl
  rcases hce : a.current_episode with _ | ep
  · refine ⟨?_, ?_, ?_, ?_, ?_, hmap⟩ <;>
      simp [App.get_playback_options, hce]
  · rcases hpos : listPosition (fun e => decide (e.number = ep.number)) a.episodes with _ | j
    · refine ⟨?_, ?_, ?_, ?_, ?_, hmap⟩ <;>
        simp [App.get_playback_options, hce, hpos]
    · by_cases hn : j + 1 < a.episodes.length <;> by_cases hpv : 0 < j <;>
        refine ⟨?_, ?_, ?_, ?_, ?_, hmap⟩ <;>
        simp [App.get_playback_options, hce, hpos, hn, hpv]
/-- Witness for the amended C5 at a concrete input: on the gap state
the first rendered option is `"Next episode"` and selecting index 0
yields the corresponding action. -/
theorem c5_playback_options_amended_witness :
    "Select episode" ∈ playbackGapApp.get_playback_options ∧
    playbackGapApp.handle_playback_input (plainKey KeyCode.Enter) =
      playbackOptionAction playbackGapApp "Next episode" := by
  obtain ⟨hsel, _, _, _, _, hmap⟩ := c5_playback_options_amended playbackGapApp
  exact ⟨hsel, hmap (plainKey KeyCode.Enter) 0 "Next episode" (by decide) (by decide)
    (by decide) rfl (by decide)⟩

/-! ### Claim C2: range-input validation -/

set_option maxRecDepth 100000 in
/-- Claim C2: on Enter in range-input mode the buffer must parse as
two integers separated by `-`; the router rejects `start > end`,
`start < 1`, and bounds outside `[min_episode, max_episode]`, each
with its own message, keeping range-input mode active and emitting
`None`; a valid range is staged as `BatchRange` behind the
confirmation step.  Concretely, over episodes 1..24 the buffers
`"12-1"`, `"0-5"` and `"1-999"` produce three pairwise-distinct
messages while `"1-12"` stages `BatchRange 1 12`, which the
affirmative key then emits. -/
theorem c2_range_validation :
    (∀ (a : App) (k : KeyEvent) (rstart rend : Int),
      a.range_input_mode = true → a.show_help = false →
      ¬(k.modifiers.ctrl = true ∧ (k.code = KeyCode.Char 'c' ∨ k.code = KeyCode.Char 'q')) →
      keybindingsMatches a.keybindings.help k = false →
      k.code = KeyCode.Enter →
      (∀ m : String, (App.set_error a m).range_input_mode = a.range_input_mode) ∧
      (parseRange a.range_input = some (rstart, rend) →
        (rstart > rend →
          a.handle_input k = (a.set_error "Invalid range: start must be <= end", Action.None)) ∧
        (rstart ≤ rend → rstart < 1 →
          a.handle_input k = (a.set_error "Invalid range: start must be >= 1", Action.None)) ∧
        (rstart ≤ rend → 1 ≤ rstart →
          (rstart > listMaxD (a.episodes.map (fun e => e.number)) 0 ∨
            rend > listMaxD (a.episodes.map (fun e => e.number)) 0) →
          a.handle_input k =
            (a.set_error ("Invalid range: episodes only go up to " ++
              toString (listMaxD (a.episodes.map (fun e => e.number)) 0)), Action.None)) ∧
        (rstart ≤ rend → 1 ≤ rstart →
          rstart ≤ listMaxD (a.episodes.map (fun e => e.number)) 0 →
          rend ≤ listMaxD (a.episodes.map (fun e => e.number)) 0 →
          rstart < listMinD (a.episodes.map (fun e => e.number)) 1 →
          a.handle_input k =
            (a.set_error ("Invalid range: episodes start at " ++
              toString (listMinD (a.episodes.map (fun e => e.number)) 1)), Action.None)) ∧
        (rstart ≤ rend → 1 ≤ rstart →
          listMinD (a.episodes.map (fun e => e.number)) 1 ≤ rstart →
          rstart ≤ listMaxD (a.episodes.map (fun e => e.number)) 0 →
          listMinD (a.episodes.map (fun e => e.number)) 1 ≤ rend →
          rend ≤ listMaxD (a.episodes.map (fun e => e.number)) 0 →
          a.handle_input k =
            ({ a with range_input_mode := false,
                      pending_batch_action := some (Action.BatchRange rstart rend),
                      batch_confirm_mode := true }, Action.None))) ∧
      (parseRange a.range_input = none →
        a.handle_input k =
          (a.set_error "Invalid range format. Use: start-end (e.g., 1-12)", Action.None))) ∧
    (((rangeInputApp "12-1").handle_input (plainKey KeyCode.Enter)).1.error_message =
        some "Invalid range: start must be <= end" ∧
      ((rangeInputApp "12-1").handle_input (plainKey KeyCode.Enter)).2 = Action.None ∧
      ((rangeInputApp "12-1").handle_input (plainKey KeyCode.Enter)).1.range_input_mode = true) ∧
    (((rangeInputApp "0-5").handle_input (plainKey KeyCode.Enter)).1.error_message =
        some "Invalid range: start must be >= 1" ∧
      ((rangeInputApp "0-5").handle_input (plainKey KeyCode.Enter)).2 = Action.None ∧
      ((rangeInputApp "0-5").handle_input (plainKey KeyCode.Enter)).1.range_input_mode = true) ∧
    (((rangeInputApp "1-999").handle_input (plainKey KeyCode.Enter)).1.error_message =
        some "Invalid range: episodes only go up to 24" ∧
      ((rangeInputApp "1-999").handle_input (plainKey KeyCode.Enter)).2 = Action.None ∧
      ((rangeInputApp "1-999").handle_input (plainKey KeyCode.Enter)).1.range_input_mode = true) ∧
    ((("Invalid range: start must be <= end" : String) ≠ "Invalid range: start must be >= 1") ∧
      (("Invalid range: start must be <= end" : String) ≠
        "Invalid range: episodes only go up to 24") ∧
      (("Invalid range: start must be >= 1" : String) ≠
        "Invalid range: episodes only go up to 24")) ∧
    (((rangeInputApp "1-12").handle_input (plainKey KeyCode.Enter)).2 = Action.None ∧
      ((rangeInputApp "1-12").handle_input (plainKey KeyCode.Enter)).1.range_input_mode = false ∧
      ((rangeInputApp "1-12").handle_input (plainKey KeyCode.Enter)).1.pending_batch_action =
        some (Action.BatchRange 1 12) ∧
      ((rangeInputApp "1-12").handle_input (plainKey KeyCode.Enter)).1.batch_confirm_mode =
        true ∧
      ((((rangeInputApp "1-12").handle_input (plainKey KeyCode.Enter)).1.handle_input
          (plainKey (KeyCode.Char 'y'))).2 = Action.BatchRange 1 12)) := by
  refine ⟨?_, by decide, by decide, by decide, by decide, by decide⟩
  intro a k rstart rend hrm hsh hq hhelp hcode
  have hri : a.handle_input k = a.handle_range_input k := by
    simp only [App.handle_input, if_neg hq, hsh, hhelp, hrm, Bool.false_eq_true, if_false,
      if_true]
  refine ⟨fun m => rfl, ?_, ?_⟩
  · intro hpr
    have hchain : a.handle_range_input k =
        (if rstart > rend then
          (a.set_error "Invalid range: start must be <= end", Action.None)
        else if rstart < 1 then
          (a.set_error "Invalid range: start must be >= 1", Action.None)
        else if rstart > listMaxD (a.episodes.map (fun e => e.number)) 0 ∨
            rend > listMaxD (a.episodes.map (fun e => e.number)) 0 then
          (a.set_error ("Invalid range: episodes only go up to " ++
            toString (listMaxD (a.episodes.map (fun e => e.number)) 0)), Action.None)
        else if rstart < listMinD (a.episodes.map (fun e => e.number)) 1 then
          (a.set_error ("Invalid range: episodes start at " ++
            toString (listMinD (a.episodes.map (fun e => e.number)) 1)), Action.None)
        else
          ({ a with range_input_mode := false,
                    pending_batch_action := some (Action.BatchRange rstart rend),
                    batch_confirm_mode := true }, Action.None)) := by
      simp only [App.handle_range_input, hcode, hpr]
    refine ⟨?_, ?_, ?_, ?_, ?_⟩
    · intro h1
      rw [hri, hchain, if_pos h1]
    · intro h1 h2
      rw [hri, hchain, if_neg (by omega), if_pos h2]
    · intro h1 h2 h3
      rw [hri, hchain, if_neg (by omega), if_neg (by omega), if_pos h3]
    · intro h1 h2 h3 h4 h5
      rw [hri, hchain, if_neg (by omega), if_neg (by omega), if_neg (by omega), if_pos h5]
    · intro h1 h2 h3 h4 h5 h6
      rw [hri, hchain, if_neg (by omega), if_neg (by omega), if_neg (by omega),
        if_neg (by omega)]
  · intro hpr
    rw [hri]
    simp only [App.handle_range_input, hcode, hpr]

/-- Witness for C2 at a concrete input. -/
theorem c2_range_validation_witness :
    (rangeInputApp "12-1").handle_input (plainKey KeyCode.Enter) =
      ((rangeInputApp "12-1").set_error "Invalid range: start must be <= end", Action.None) := by
  have h := c2_range_validation.1 (rangeInputApp "12-1") (plainKey KeyCode.Enter) 12 1
    rfl rfl (by decide) (by decide) rfl
  exact (h.2.1 (by decide)).1 (by decide)

/-! ### Claim C7: search-bar input precedence -/

/-- Claim C7 counterexample: while the search bar is focused, three
keystrokes other than Enter/Escape/Backspace are not treated as text
entry, contrary to the claim: the help binding `?` opens the help
overlay without appending, the focus-toggle key Tab changes nothing
and appends nothing, and Ctrl+C emits `Quit`. -/
theorem c7_search_entry_counterexample :
    (searchFocusedApp.handle_input (plainKey (KeyCode.Char '?'))).1.search_input ≠
      strPush searchFocusedApp.search_input '?' ∧
    (searchFocusedApp.handle_input (plainKey (KeyCode.Char '?'))).1.show_help = true ∧
    (searchFocusedApp.handle_input (plainKey KeyCode.Tab)).1.search_input ≠
      strPush searchFocusedApp.search_input '\t' ∧
    (searchFocusedApp.handle_input (plainKey KeyCode.Tab)).2 = Action.None ∧
    (searchFocusedApp.handle_input ⟨KeyCode.Char 'c', ⟨true, false, false, false⟩⟩).2 =
      Action.Quit := by
  decide

/-- Claim C7 as amended: while the search bar is focused and the help
overlay is closed, every character keystroke except the Ctrl
force-quit chords and the help-toggle binding appends to the buffer
and emits `None` (in particular the characters bound to search-focus
are plain text here); non-character keys other than
Enter/Escape/Backspace leave the state unchanged and emit `None`;
Enter with a non-empty buffer emits `Search(query)`, clears the
buffer, unfocuses the search bar and sets focus to Main; and the
sequence [search key, "naruto", Enter] from the initial state yields
`Search "naruto"`. -/
theorem c7_search_entry_amended :
    (∀ (a : App) (k : KeyEvent),
      a.search_focused = true → a.show_help = false →
      a.range_input_mode = false → a.batch_confirm_mode = false →
      ¬(k.modifiers.ctrl = true ∧ (k.code = KeyCode.Char 'c' ∨ k.code = KeyCode.Char 'q')) →
      keybindingsMatches a.keybindings.help k = false →
      (∀ c, k.code = KeyCode.Char c →
        a.handle_input k =
          ({ a with search_input := strPush a.search_input c }, Action.None)) ∧
      (k.code = KeyCode.Enter → strIsEmpty a.search_input = false →
        a.handle_input k =
          ({ a with search_input := "", search_focused := false, focus := Focus.Main },
            Action.Search a.search_input)) ∧
      (k.code ≠ KeyCode.Enter → k.code ≠ KeyCode.Esc → k.code ≠ KeyCode.Backspace →
        (∀ c, k.code ≠ KeyCode.Char c) →
        a.handle_input k = (a, Action.None))) ∧
    (runKeys initialApp searchNarutoKeys).2 = Action.Search "naruto" ∧
    (runKeys initialApp searchNarutoKeys).1.search_focused = false ∧
    (runKeys initialApp searchNarutoKeys).1.focus = Focus.Main := by
  refine ⟨?_, by decide, by decide, by decide⟩
  intro a k hsf hsh hrm hbc hq hhelp
  have hri : a.handle_input k = a.handle_search_bar_input k := by
    simp only [App.handle_input, if_neg hq, hsh, hhelp, hrm, hbc, hsf, Bool.false_eq_true,
      if_false, if_true]
  refine ⟨?_, ?_, ?_⟩
  · intro c hc
    rw [hri]
    simp only [App.handle_search_bar_input, hc]
  · intro hc hne
    rw [hri]
    simp only [App.handle_search_bar_input, hc, hne, Bool.not_false, if_true]
  · intro hen hes hbs hnc
    rw [hri]
    simp only [App.handle_search_bar_input]

/-- Witness for the amended C7 at a concrete input. -/
theorem c7_search_entry_amended_witness :
    searchFocusedApp.handle_input (plainKey (KeyCode.Char 'n')) =
      ({ searchFocusedApp with
          search_input := strPush searchFocusedApp.search_input 'n' }, Action.None) := by
  have h := c7_search_entry_amended.1 searchFocusedApp (plainKey (KeyCode.Char 'n'))
    rfl rfl rfl rfl (by decide) (by decide)
  exact h.1 'n' rfl

/-! ### Routing classification: no handler but batch-confirm emits a batch action -/

theorem handle_search_bar_no_batch (a : App) (k : KeyEvent) (rs re : Int) :
    (a.handle_search_bar_input k).2 ≠ Action.BatchAll ∧
    (a.handle_search_bar_input k).2 ≠ Action.BatchRange rs re := by
  unfold App.handle_search_bar_input
  repeat' split
  all_goals simp

theorem handle_sidebar_no_batch (a : App) (k : KeyEvent) (rs re : Int) :
    (a.handle_sidebar_input k).2 ≠ Action.BatchAll ∧
    (a.handle_sidebar_input k).2 ≠ Action.BatchRange rs re := by
  unfold App.handle_sidebar_input
  repeat' split
  all_goals simp

theorem handle_startup_no_batch (a : App) (k : KeyEvent) (rs re : Int) :
    (a.handle_startup_input k).2 ≠ Action.BatchAll ∧
    (a.handle_startup_input k).2 ≠ Action.BatchRange rs re := by
  unfold App.handle_startup_input
  repeat' split
  all_goals simp

theorem handle_search_no_batch (a : App) (k : KeyEvent) (rs re : Int) :
    (a.handle_search_input k).2 ≠ Action.BatchAll ∧
    (a.handle_search_input k).2 ≠ Action.BatchRange rs re := by
  unfold App.handle_search_input
  repeat' split
  all_goals simp

theorem handle_show_list_no_batch (a : App) (k : KeyEvent) (rs re : Int) :
    (a.handle_show_list_input k).2 ≠ Action.BatchAll ∧
    (a.handle_show_list_input k).2 ≠ Action.BatchRange rs re := by
  unfold App.handle_show_list_input
  repeat' split
  all_goals simp

theorem handle_episode_list_no_batch (a : App) (k : KeyEvent) (rs re : Int) :
    (a.handle_episode_list_input k).2 ≠ Action.BatchAll ∧
    (a.handle_episode_list_input k).2 ≠ Action.BatchRange rs re := by
  unfold App.handle_episode_list_input
  dsimp only
  repeat' split
  all_goals simp

theorem handle_episode_filter_no_batch (a : App) (k : KeyEvent) (rs re : Int) :
    (a.handle_episode_filter_input k).2 ≠ Action.BatchAll ∧
    (a.handle_episode_filter_input k).2 ≠ Action.BatchRange rs re := by
  unfold App.handle_episode_filter_input
  repeat' split
  all_goals simp

theorem handle_quality_no_batch (a : App) (k : KeyEvent) (rs re : Int) :
    (a.handle_quality_input k).2 ≠ Action.BatchAll ∧
    (a.handle_quality_input k).2 ≠ Action.BatchRange rs re := by
  unfold App.handle_quality_input
  repeat' split
  all_goals simp

theorem handle_playback_no_batch (a : App) (k : KeyEvent) (rs re : Int) :
    (a.handle_playback_input k).2 ≠ Action.BatchAll ∧
    (a.handle_playback_input k).2 ≠ Action.BatchRange rs re := by
  unfold App.handle_playback_input
  dsimp only
  repeat' split
  all_goals simp

theorem handle_batch_input_no_batch (a : App) (k : KeyEvent) (rs re : Int) :
    (a.handle_batch_input k).2 ≠ Action.BatchAll ∧
    (a.handle_batch_input k).2 ≠ Action.BatchRange rs re := by
  unfold App.handle_batch_input
  repeat' split
  all_goals simp

theorem handle_range_input_no_batch (a : App) (k : KeyEvent) (rs re : Int) :
    (a.handle_range_input k).2 ≠ Action.BatchAll ∧
    (a.handle_range_input k).2 ≠ Action.BatchRange rs re := by
  unfold App.handle_range_input
  dsimp only
  repeat' split
  all_goals simp

theorem handle_batch_confirm_emission (a : App) (k : KeyEvent)
    (h : (a.handle_batch_confirm k).2 = Action.BatchAll ∨
      ∃ rs re, (a.handle_batch_confirm k).2 = Action.BatchRange rs re) :
    (k.code = KeyCode.Char 'y' ∨ k.code = KeyCode.Char 'Y' ∨ k.code = KeyCode.Enter) ∧
    a.pending_batch_action = some (a.handle_batch_confirm k).2 ∧
    (a.handle_batch_confirm k).1.pending_batch_action = none ∧
    (a.handle_batch_confirm k).1.batch_confirm_mode = false := by
  unfold App.handle_batch_confirm at h ⊢
  dsimp only at h ⊢
  split at h
  all_goals
    first
    | (rcases h with h | ⟨rs, re, h⟩ <;> simp at h)
    | (rename_i heq
       rcases hp : a.pending_batch_action with _ | act
       · rcases h with h | ⟨rs, re, h⟩ <;> simp [hp] at h
       · simp only [hp] at h ⊢
         exact ⟨by simp [heq], by trivial, by trivial, by trivial⟩)

theorem handle_input_batch_emission (a : App) (k : KeyEvent)
    (h : (a.handle_input k).2 = Action.BatchAll ∨
      ∃ rs re, (a.handle_input k).2 = Action.BatchRange rs re) :
    a.range_input_mode = false ∧ a.batch_confirm_mode = true ∧
    (k.code = KeyCode.Char 'y' ∨ k.code = KeyCode.Char 'Y' ∨ k.code = KeyCode.Enter) ∧
    a.pending_batch_action = some (a.handle_input k).2 ∧
    (a.handle_input k).1.pending_batch_action = none ∧
    (a.handle_input k).1.batch_confirm_mode = false := by
  unfold App.handle_input at h ⊢
  by_cases h1 : k.modifiers.ctrl = true ∧
      (k.code = KeyCode.Char 'c' ∨ k.code = KeyCode.Char 'q')
  · rw [if_pos h1] at h
    rcases h with h | ⟨rs, re, h⟩ <;> simp at h
  rw [if_neg h1] at h ⊢
  by_cases h2 : a.show_help = true
  · rw [if_pos h2] at h
    rcases h with h | ⟨rs, re, h⟩ <;> (split at h <;> simp at h)
  rw [if_neg h2] at h ⊢
  by_cases h3 : keybindingsMatches a.keybindings.help k = true
  · rw [if_pos h3] at h
    rcases h with h | ⟨rs, re, h⟩ <;> simp at h
  rw [if_neg h3] at h ⊢
  by_cases h4 : a.range_input_mode = true
  · rw [if_pos h4] at h
    rcases h with h | ⟨rs, re, h⟩
    · exact absurd h (handle_range_input_no_batch a k 0 0).1
    · exact absurd h (handle_range_input_no_batch a k rs re).2
  rw [if_neg h4] at h ⊢
  by_cases h5 : a.batch_confirm_mode = true
  · rw [if_pos h5] at h ⊢
    have hr4 : a.range_input_mode = false := by
      revert h4
      cases a.range_input_mode <;> simp
    obtain ⟨haff, hpend, hp1, hp2⟩ := handle_batch_confirm_emission a k h
    exact ⟨hr4, h5, haff, hpend, hp1, hp2⟩
  rw [if_neg h5] at h ⊢
  by_cases h6 : a.search_focused = true
  · rw [if_pos h6] at h
    rcases h with h | ⟨rs, re, h⟩
    · exact absurd h (handle_search_bar_no_batch a k 0 0).1
    · exact absurd h (handle_search_bar_no_batch a k rs re).2
  rw [if_neg h6] at h ⊢
  by_cases h7 : a.episode_filter_active = true
  · rw [if_pos h7] at h
    rcases h with h | ⟨rs, re, h⟩
    · exact absurd h (handle_episode_filter_no_batch a k 0 0).1
    · exact absurd h (handle_episode_filter_no_batch a k rs re).2
  rw [if_neg h7] at h ⊢
  by_cases h8 : keybindingsMatches a.keybindings.toggle_focus k = true
  · rw [if_pos h8] at h
    dsimp only at h
    rcases h with h | ⟨rs, re, h⟩ <;> (split at h <;> simp at h)
  rw [if_neg h8] at h ⊢
  by_cases h9 : keybindingsMatches a.keybindings.search k = true
  · rw [if_pos h9] at h
    rcases h with h | ⟨rs, re, h⟩ <;> simp at h
  rw [if_neg h9] at h ⊢
  by_cases h10 : a.focus = Focus.Sidebar
  · rw [if_pos h10] at h
    rcases h with h | ⟨rs, re, h⟩
    · exact absurd h (handle_sidebar_no_batch a k 0 0).1
    · exact absurd h (handle_sidebar_no_batch a k rs re).2
  rw [if_neg h10] at h ⊢
  cases hscr : a.screen with
  | Startup =>
    simp only [hscr] at h
    rcases h with h | ⟨rs, re, h⟩
    · exact absurd h (handle_startup_no_batch a k 0 0).1
    · exact absurd h (handle_startup_no_batch a k rs re).2
  | Search =>
    simp only [hscr] at h
    rcases h with h | ⟨rs, re, h⟩
    · exact absurd h (handle_search_no_batch a k 0 0).1
    · exact absurd h (handle_search_no_batch a k rs re).2
  | ShowList =>
    simp only [hscr] at h
    rcases h with h | ⟨rs, re, h⟩
    · exact absurd h (handle_show_list_no_batch a k 0 0).1
    · exact absurd h (handle_show_list_no_batch a k rs re).2
  | EpisodeList =>
    simp only [hscr] at h
    rcases h with h | ⟨rs, re, h⟩
    · exact absurd h (handle_episode_list_no_batch a k 0 0).1
    · exact absurd h (handle_episode_list_no_batch a k rs re).2
  | QualitySelect =>
    simp only [hscr] at h
    rcases h with h | ⟨rs, re, h⟩
    · exact absurd h (handle_quality_no_batch a k 0 0).1
    · exact absurd h (handle_quality_no_batch a k rs re).2
  | Playback =>
    simp only [hscr] at h
    rcases h with h | ⟨rs, re, h⟩
    · exact absurd h (handle_playback_no_batch a k 0 0).1
    · exact absurd h (handle_playback_no_batch a k rs re).2
  | BatchSelect =>
    simp only [hscr] at h
    rcases h with h | ⟨rs, re, h⟩
    · exact absurd h (handle_batch_input_no_batch a k 0 0).1
    · exact absurd h (handle_batch_input_no_batch a k rs re).2
  | Loading =>
    simp only [hscr] at h
    rcases h with h | ⟨rs, re, h⟩ <;> (split at h <;> simp at h)

/-! ### Claim C1: batch-confirmation protocol -/

set_option maxRecDepth 100000 in
/-- Claim C1: the router never emits `BatchAll` or a validated
`BatchRange` directly from the BatchSelect screen or range-input mode:
an emission happens only on an affirmative key (y/Y/Enter) in
batch-confirm mode and consumes `pending_batch_action`, so the action
is produced exactly once and a second affirmative press emits `None`;
from BatchSelect, selecting All stages `BatchAll` with
`batch_confirm_mode` set while `BatchSingle` is emitted directly.  The
concrete conjuncts replay the §8 scenario [select option 0, y]:
`BatchAll` is emitted exactly once and later affirmative presses yield
`None`. -/
theorem c1_batch_confirmation_protocol :
    (∀ (a : App) (k : KeyEvent),
      ((a.handle_input k).2 = Action.BatchAll ∨
        ∃ rs re, (a.handle_input k).2 = Action.BatchRange rs re) →
      a.range_input_mode = false ∧ a.batch_confirm_mode = true ∧
      (k.code = KeyCode.Char 'y' ∨ k.code = KeyCode.Char 'Y' ∨ k.code = KeyCode.Enter) ∧
      a.pending_batch_action = some (a.handle_input k).2 ∧
      (a.handle_input k).1.pending_batch_action = none ∧
      (a.handle_input k).1.batch_confirm_mode = false) ∧
    (∀ (a : App) (k : KeyEvent), a.batch_confirm_mode = false →
      (a.handle_input k).2 ≠ Action.BatchAll ∧
      ∀ rs re, (a.handle_input k).2 ≠ Action.BatchRange rs re) ∧
    (∀ (a : App) (k : KeyEvent),
      a.show_help = false → a.search_focused = false → a.episode_filter_active = false →
      a.range_input_mode = false → a.batch_confirm_mode = false →
      a.focus = Focus.Main → a.screen = Screen.BatchSelect →
      ¬(k.modifiers.ctrl = true ∧ (k.code = KeyCode.Char 'c' ∨ k.code = KeyCode.Char 'q')) →
      keybindingsMatches a.keybindings.help k = false →
      keybindingsMatches a.keybindings.toggle_focus k = false →
      keybindingsMatches a.keybindings.search k = false →
      keybindingsMatches a.keybindings.up k = false →
      keybindingsMatches a.keybindings.down k = false →
      keybindingsMatches a.keybindings.select k = true →
      (a.batch_list_state = some 0 →
        a.handle_input k =
          ({ a with pending_batch_action := some Action.BatchAll,
                    batch_confirm_mode := true }, Action.None)) ∧
      (a.batch_list_state = some 2 → a.handle_input k = (a, Action.BatchSingle))) ∧
    ((batchSelectApp.handle_input (plainKey KeyCode.Enter)).2 = Action.None ∧
      (batchSelectApp.handle_input (plainKey KeyCode.Enter)).1.pending_batch_action =
        some Action.BatchAll ∧
      (batchSelectApp.handle_input (plainKey KeyCode.Enter)).1.batch_confirm_mode = true ∧
      ((batchSelectApp.handle_input (plainKey KeyCode.Enter)).1.handle_input
          (plainKey (KeyCode.Char 'y'))).2 = Action.BatchAll ∧
      ((batchSelectApp.handle_input (plainKey KeyCode.Enter)).1.handle_input
          (plainKey (KeyCode.Char 'y'))).1.pending_batch_action = none ∧
      ((((batchSelectApp.handle_input (plainKey KeyCode.Enter)).1.handle_input
          (plainKey (KeyCode.Char 'y'))).1.handle_input
            (plainKey (KeyCode.Char 'y'))).2 = Action.None) ∧
      ((((batchSelectApp.handle_input (plainKey KeyCode.Enter)).1.handle_input
          (plainKey (KeyCode.Char 'y'))).1.handle_input
            (plainKey KeyCode.Enter)).2 = Action.None)) := by
  refine ⟨fun a k h => handle_input_batch_emission a k h, ?_, ?_, by decide⟩
  · intro a k hf
    constructor
    · intro hcontra
      have := (handle_input_batch_emission a k (Or.inl hcontra)).2.1
      rw [hf] at this
      cases this
    · intro rs re hcontra
      have := (handle_input_batch_emission a k (Or.inr ⟨rs, re, hcontra⟩)).2.1
      rw [hf] at this
      cases this
  · intro a k hsh hsf hfl hrm hbc hfo hscreen hq hhelp htg hsr hup hdown hsel
    have hpf : ¬(a.focus = Focus.Sidebar) := by
      rw [hfo]
      simp
    have hbi : a.handle_input k = a.handle_batch_input k := by
      simp only [App.handle_input, if_neg hq, hsh, hhelp, hrm, hbc, hsf, hfl, htg, hsr,
        Bool.false_eq_true, if_false, if_neg hpf, hscreen]
    constructor
    · intro hst
      rw [hbi]
      simp only [App.handle_batch_input, hup, hdown, hsel, Bool.false_eq_true, if_false,
        if_true, hst]
    · intro hst
      rw [hbi]
      simp only [App.handle_batch_input, hup, hdown, hsel, Bool.false_eq_true, if_false,
        if_true, hst]

/-- Witness for C1 at a concrete input: the staging conjunct applied to
the BatchSelect demo state. -/
theorem c1_batch_confirmation_protocol_witness :
    batchSelectApp.handle_input (plainKey KeyCode.Enter) =
      ({ batchSelectApp with pending_batch_action := some Action.BatchAll,
                             batch_confirm_mode := true }, Action.None) := by
  have h := c1_batch_confirmation_protocol.2.2.1 batchSelectApp (plainKey KeyCode.Enter)
    rfl rfl rfl rfl rfl rfl rfl (by decide) (by decide) (by decide) (by decide) (by decide)
    (by decide) (by decide)
  exact h.1 rfl

/-! ### Per-handler effect lemmas for the invariants -/

theorem bool_eq_false_of_not_true {b : Bool} (h : ¬b = true) : b = false := by
  cases b <;> simp_all

theorem flags_of_range (a : App) (hm : modeFlagCount a ≤ 1)
    (h : a.range_input_mode = true) :
    a.search_focused = false ∧ a.episode_filter_active = false ∧
    a.batch_confirm_mode = false := by
  unfold modeFlagCount at hm
  rw [h] at hm
  revert hm
  cases a.search_focused <;> cases a.episode_filter_active <;>
    cases a.batch_confirm_mode <;> simp

theorem flags_of_confirm (a : App) (hm : modeFlagCount a ≤ 1)
    (h : a.batch_confirm_mode = true) :
    a.search_focused = false ∧ a.episode_filter_active = false ∧
    a.range_input_mode = false := by
  unfold modeFlagCount at hm
  rw [h] at hm
  revert hm
  cases a.search_focused <;> cases a.episode_filter_active <;>
    cases a.range_input_mode <;> simp

theorem handle_sidebar_effects (a : App) (k : KeyEvent) :
    (a.handle_sidebar_input k).1.search_focused = a.search_focused ∧
    (a.handle_sidebar_input k).1.episode_filter_active = a.episode_filter_active ∧
    (a.handle_sidebar_input k).1.range_input_mode = a.range_input_mode ∧
    (a.handle_sidebar_input k).1.batch_confirm_mode = a.batch_confirm_mode ∧
    (a.handle_sidebar_input k).1.pending_batch_action = a.pending_batch_action ∧
    ((a.handle_sidebar_input k).2 = Action.Quit →
      (a.handle_sidebar_input k).1.should_quit = true) ∧
    ((a.handle_sidebar_input k).2 ≠ Action.Quit →
      (a.handle_sidebar_input k).1.should_quit = a.should_quit) := by
  unfold App.handle_sidebar_input
  dsimp only
  repeat' split
  all_goals simp

theorem handle_startup_effects (a : App) (k : KeyEvent) :
    (a.handle_startup_input k).1.search_focused = a.search_focused ∧
    (a.handle_startup_input k).1.episode_filter_active = a.episode_filter_active ∧
    (a.handle_startup_input k).1.range_input_mode = a.range_input_mode ∧
    (a.handle_startup_input k).1.batch_confirm_mode = a.batch_confirm_mode ∧
    (a.handle_startup_input k).1.pending_batch_action = a.pending_batch_action ∧
    ((a.handle_startup_input k).2 = Action.Quit →
      (a.handle_startup_input k).1.should_quit = true) ∧
    ((a.handle_startup_input k).2 ≠ Action.Quit →
      (a.handle_startup_input k).1.should_quit = a.should_quit) := by
  unfold App.handle_startup_input
  dsimp only
  repeat' split
  all_goals simp

theorem handle_search_screen_effects (a : App) (k : KeyEvent) :
    (a.handle_search_input k).1.search_focused = a.search_focused ∧
    (a.handle_search_input k).1.episode_filter_active = a.episode_filter_active ∧
    (a.handle_search_input k).1.range_input_mode = a.range_input_mode ∧
    (a.handle_search_input k).1.batch_confirm_mode = a.batch_confirm_mode ∧
    (a.handle_search_input k).1.pending_batch_action = a.pending_batch_action ∧
    ((a.handle_search_input k).2 = Action.Quit →
      (a.handle_search_input k).1.should_quit = true) ∧
    ((a.handle_search_input k).2 ≠ Action.Quit →
      (a.handle_search_input k).1.should_quit = a.should_quit) := by
  unfold App.handle_search_input
  dsimp only
  repeat' split
  all_goals simp

theorem handle_show_list_effects (a : App) (k : KeyEvent) :
    (a.handle_show_list_input k).1.search_focused = a.search_focused ∧
    (a.handle_show_list_input k).1.episode_filter_active = a.episode_filter_active ∧
    (a.handle_show_list_input k).1.range_input_mode = a.range_input_mode ∧
    (a.handle_show_list_input k).1.batch_confirm_mode = a.batch_confirm_mode ∧
    (a.handle_show_list_input k).1.pending_batch_action = a.pending_batch_action ∧
    ((a.handle_show_list_input k).2 = Action.Quit →
      (a.handle_show_list_input k).1.should_quit = true) ∧
    ((a.handle_show_list_input k).2 ≠ Action.Quit →
      (a.handle_show_list_input k).1.should_quit = a.should_quit) := by
  unfold App.handle_show_list_input
  dsimp only
  repeat' split
  all_goals simp

theorem handle_quality_effects (a : App) (k : KeyEvent) :
    (a.handle_quality_input k).1.search_focused = a.search_focused ∧
    (a.handle_quality_input k).1.episode_filter_active = a.episode_filter_active ∧
    (a.handle_quality_input k).1.range_input_mode = a.range_input_mode ∧
    (a.handle_quality_input k).1.batch_confirm_mode = a.batch_confirm_mode ∧
    (a.handle_quality_input k).1.pending_batch_action = a.pending_batch_action ∧
    ((a.handle_quality_input k).2 = Action.Quit →
      (a.handle_quality_input k).1.should_quit = true) ∧
    ((a.handle_quality_input k).2 ≠ Action.Quit →
      (a.handle_quality_input k).1.should_quit = a.should_quit) := by
  unfold App.handle_quality_input
  dsimp only
  repeat' split
  all_goals simp

theorem handle_playback_effects (a : App) (k : KeyEvent) :
    (a.handle_playback_input k).1.search_focused = a.search_focused ∧
    (a.handle_playback_input k).1.episode_filter_active = a.episode_filter_active ∧
    (a.handle_playback_input k).1.range_input_mode = a.range_input_mode ∧
    (a.handle_playback_input k).1.batch_confirm_mode = a.batch_confirm_mode ∧
    (a.handle_playback_input k).1.pending_batch_action = a.pending_batch_action ∧
    ((a.handle_playback_input k).2 = Action.Quit →
      (a.handle_playback_input k).1.should_quit = true) ∧
    ((a.handle_playback_input k).2 ≠ Action.Quit →
      (a.handle_playback_input k).1.should_quit = a.should_quit) := by
  unfold App.handle_playback_input
  dsimp only
  repeat' split
  all_goals simp

theorem handle_search_bar_effects (a : App) (k : KeyEvent) :
    (a.handle_search_bar_input k).1.episode_filter_active = a.episode_filter_active ∧
    (a.handle_search_bar_input k).1.range_input_mode = a.range_input_mode ∧
    (a.handle_search_bar_input k).1.batch_confirm_mode = a.batch_confirm_mode ∧
    (a.handle_search_bar_input k).1.pending_batch_action = a.pending_batch_action ∧
    ((a.handle_search_bar_input k).1.search_focused = a.search_focused ∨
      (a.handle_search_bar_input k).1.search_focused = false) ∧
    (a.handle_search_bar_input k).2 ≠ Action.Quit ∧
    (a.handle_search_bar_input k).1.should_quit = a.should_quit := by
  unfold App.handle_search_bar_input
  dsimp only
  repeat' split
  all_goals simp

theorem handle_episode_filter_effects (a : App) (k : KeyEvent) :
    (a.handle_episode_filter_input k).1.search_focused = a.search_focused ∧
    (a.handle_episode_filter_input k).1.range_input_mode = a.range_input_mode ∧
    (a.handle_episode_filter_input k).1.batch_confirm_mode = a.batch_confirm_mode ∧
    (a.handle_episode_filter_input k).1.pending_batch_action = a.pending_batch_action ∧
    ((a.handle_episode_filter_input k).1.episode_filter_active = a.episode_filter_active ∨
      (a.handle_episode_filter_input k).1.episode_filter_active = false) ∧
    (a.handle_episode_filter_input k).2 ≠ Action.Quit ∧
    (a.handle_episode_filter_input k).1.should_quit = a.should_quit := by
  unfold App.handle_episode_filter_input
  dsimp only
  repeat' split
  all_goals simp

theorem handle_range_effects (a : App) (k : KeyEvent) :
    (a.handle_range_input k).1.search_focused = a.search_focused ∧
    (a.handle_range_input k).1.episode_filter_active = a.episode_filter_active ∧
    ((((a.handle_range_input k).1.range_input_mode = a.range_input_mode ∧
        (a.handle_range_input k).1.batch_confirm_mode = a.batch_confirm_mode ∧
        (a.handle_range_input k).1.pending_batch_action = a.pending_batch_action)) ∨
      ((a.handle_range_input k).1.range_input_mode = false ∧
        (a.handle_range_input k).1.batch_confirm_mode = true ∧
        ∃ rs re, (a.handle_range_input k).1.pending_batch_action =
          some (Action.BatchRange rs re)) ∨
      ((a.handle_range_input k).1.range_input_mode = false ∧
        (a.handle_range_input k).1.batch_confirm_mode = a.batch_confirm_mode ∧
        (a.handle_range_input k).1.pending_batch_action = a.pending_batch_action)) ∧
    (a.handle_range_input k).2 ≠ Action.Quit ∧
    (a.handle_range_input k).1.should_quit = a.should_quit := by
  unfold App.handle_range_input
  dsimp only
  repeat' split
  all_goals simp [App.set_error]

theorem handle_batch_input_effects (a : App) (k : KeyEvent) :
    (a.handle_batch_input k).1.search_focused = a.search_focused ∧
    (a.handle_batch_input k).1.episode_filter_active = a.episode_filter_active ∧
    (((a.handle_batch_input k).1.range_input_mode = a.range_input_mode ∧
        (a.handle_batch_input k).1.batch_confirm_mode = a.batch_confirm_mode ∧
        (a.handle_batch_input k).1.pending_batch_action = a.pending_batch_action) ∨
      ((a.handle_batch_input k).1.range_input_mode = a.range_input_mode ∧
        (a.handle_batch_input k).1.batch_confirm_mode = true ∧
        (a.handle_batch_input k).1.pending_batch_action = some Action.BatchAll) ∨
      ((a.handle_batch_input k).1.range_input_mode = true ∧
        (a.handle_batch_input k).1.batch_confirm_mode = a.batch_confirm_mode ∧
        (a.handle_batch_input k).1.pending_batch_action = a.pending_batch_action)) ∧
    ((a.handle_batch_input k).2 = Action.Quit →
      (a.handle_batch_input k).1.should_quit = true) ∧
    ((a.handle_batch_input k).2 ≠ Action.Quit →
      (a.handle_batch_input k).1.should_quit = a.should_quit) := by
  unfold App.handle_batch_input
  dsimp only
  repeat' split
  all_goals simp

theorem handle_batch_confirm_effects (a : App) (k : KeyEvent) :
    (a.handle_batch_confirm k).1.search_focused = a.search_focused ∧
    (a.handle_batch_confirm k).1.episode_filter_active = a.episode_filter_active ∧
    (a.handle_batch_confirm k).1.range_input_mode = a.range_input_mode ∧
    (((a.handle_batch_confirm k).1.batch_confirm_mode = a.batch_confirm_mode ∧
        (a.handle_batch_confirm k).1.pending_batch_action = a.pending_batch_action) ∨
      ((a.handle_batch_confirm k).1.batch_confirm_mode = false ∧
        (a.handle_batch_confirm k).1.pending_batch_action = none)) ∧
    (a.handle_batch_confirm k).1.should_quit = a.should_quit ∧
    (∀ act, (a.handle_batch_confirm k).2 = act →
      act = Action.None ∨ a.pending_batch_action = some act) := by
  unfold App.handle_batch_confirm
  dsimp only
  repeat' split
  all_goals simp_all

theorem handle_episode_list_effects (a : App) (k : KeyEvent) :
    (a.handle_episode_list_input k).1.search_focused = a.search_focused ∧
    (a.handle_episode_list_input k).1.range_input_mode = a.range_input_mode ∧
    (((a.handle_episode_list_input k).1.episode_filter_active = a.episode_filter_active ∨
        (a.handle_episode_list_input k).1.episode_filter_active = true) ∧
      (a.handle_episode_list_input k).1.batch_confirm_mode = a.batch_confirm_mode ∧
      (a.handle_episode_list_input k).1.pending_batch_action = a.pending_batch_action) ∧
    ((a.handle_episode_list_input k).2 = Action.Quit →
      (a.handle_episode_list_input k).1.should_quit = true) ∧
    ((a.handle_episode_list_input k).2 ≠ Action.Quit →
      (a.handle_episode_list_input k).1.should_quit = a.should_quit) := by
  unfold App.handle_episode_list_input
  dsimp only
  repeat' split
  all_goals simp

theorem flags_of_search (a : App) (hm : modeFlagCount a ≤ 1)
    (h : a.search_focused = true) :
    a.episode_filter_active = false ∧ a.range_input_mode = false ∧
    a.batch_confirm_mode = false := by
  unfold modeFlagCount at hm
  rw [h] at hm
  revert hm
  cases a.episode_filter_active <;> cases a.range_input_mode <;>
    cases a.batch_confirm_mode <;> simp

theorem flags_of_filter (a : App) (hm : modeFlagCount a ≤ 1)
    (h : a.episode_filter_active = true) :
    a.search_focused = false ∧ a.range_input_mode = false ∧
    a.batch_confirm_mode = false := by
  unfold modeFlagCount at hm
  rw [h] at hm
  revert hm
  cases a.search_focused <;> cases a.range_input_mode <;>
    cases a.batch_confirm_mode <;> simp

theorem modeFlagCount_congr (x a : App) (h1 : x.search_focused = a.search_focused)
    (h2 : x.episode_filter_active = a.episode_filter_active)
    (h3 : x.range_input_mode = a.range_input_mode)
    (h4 : x.batch_confirm_mode = a.batch_confirm_mode) :
    modeFlagCount x = modeFlagCount a := by
  unfold modeFlagCount
  rw [h1, h2, h3, h4]

theorem handle_input_preserves (a : App) (k : KeyEvent)
    (hmode : modeFlagCount a ≤ 1) (hpend : PendingWellFormed a) :
    modeFlagCount (a.handle_input k).1 ≤ 1 ∧
    PendingWellFormed (a.handle_input k).1 ∧
    ((a.handle_input k).2 = Action.Quit → (a.handle_input k).1.should_quit = true) ∧
    ((a.handle_input k).2 ≠ Action.Quit →
      (a.handle_input k).1.should_quit = a.should_quit) := by
  unfold App.handle_input
  by_cases h1 : k.modifiers.ctrl = true ∧
      (k.code = KeyCode.Char 'c' ∨ k.code = KeyCode.Char 'q')
  · rw [if_pos h1]
    refine ⟨by simpa [modeFlagCount] using hmode, fun act hact => hpend act hact,
      fun _ => rfl, fun hne => absurd rfl hne⟩
  rw [if_neg h1]
  by_cases h2 : a.show_help = true
  · rw [if_pos h2]
    split <;>
      exact ⟨by simpa [modeFlagCount] using hmode, fun act hact => hpend act hact,
        fun hq => by simp at hq, fun _ => rfl⟩
  rw [if_neg h2]
  by_cases h3 : keybindingsMatches a.keybindings.help k = true
  · rw [if_pos h3]
    exact ⟨by simpa [modeFlagCount] using hmode, fun act hact => hpend act hact,
      fun hq => by simp at hq, fun _ => rfl⟩
  rw [if_neg h3]
  by_cases h4 : a.range_input_mode = true
  · rw [if_pos h4]
    obtain ⟨hsf, hfl, hbc⟩ := flags_of_range a hmode h4
    obtain ⟨e1, e2, e3, e4, e5⟩ := handle_range_effects a k
    refine ⟨?_, ?_, fun hq => absurd hq e4, fun _ => e5⟩
    · rcases e3 with ⟨r1, r2, r3⟩ | ⟨r1, r2, r3⟩ | ⟨r1, r2, r3⟩ <;>
        simp [modeFlagCount, e1, e2, hsf, hfl, hbc, r1, r2, h4]
    · rcases e3 with ⟨r1, r2, r3⟩ | ⟨r1, r2, ⟨rs, re, r3⟩⟩ | ⟨r1, r2, r3⟩
      · intro act hact
        rw [r3] at hact
        exact hpend act hact
      · intro act hact
        rw [r3] at hact
        cases hact
        exact Or.inr ⟨rs, re, rfl⟩
      · intro act hact
        rw [r3] at hact
        exact hpend act hact
  rw [if_neg h4]
  by_cases h5 : a.batch_confirm_mode = true
  · rw [if_pos h5]
    obtain ⟨hsf, hfl, hrm⟩ := flags_of_confirm a hmode h5
    obtain ⟨e1, e2, e3, e4, e5, e6⟩ := handle_batch_confirm_effects a k
    refine ⟨?_, ?_, ?_, fun _ => e5⟩
    · rcases e4 with ⟨c1, c2⟩ | ⟨c1, c2⟩ <;>
        simp [modeFlagCount, e1, e2, e3, hsf, hfl, hrm, c1, h5]
    · rcases e4 with ⟨c1, c2⟩ | ⟨c1, c2⟩
      · intro act hact
        rw [c2] at hact
        exact hpend act hact
      · intro act hact
        rw [c2] at hact
        cases hact
    · intro hq
      rcases e6 _ rfl with hn | hp
      · rw [hq] at hn
        cases hn
      · have := hpend _ hp
        rw [hq] at this
        rcases this with hh | ⟨rs, re, hh⟩ <;> cases hh
  rw [if_neg h5]
  by_cases h6 : a.search_focused = true
  · rw [if_pos h6]
    obtain ⟨hfl, hrm, hbc⟩ := flags_of_search a hmode h6
    obtain ⟨e1, e2, e3, e4, e5, e6, e7⟩ := handle_search_bar_effects a k
    refine ⟨?_, ?_, fun hq => absurd hq e6, fun _ => e7⟩
    · rcases e5 with c1 | c1 <;>
        simp [modeFlagCount, e1, e2, e3, hfl, hrm, hbc, c1, h6]
    · intro act hact
      rw [e4] at hact
      exact hpend act hact
  rw [if_neg h6]
  by_cases h7 : a.episode_filter_active = true
  · rw [if_pos h7]
    obtain ⟨hsf, hrm, hbc⟩ := flags_of_filter a hmode h7
    obtain ⟨e1, e2, e3, e4, e5, e6, e7⟩ := handle_episode_filter_effects a k
    refine ⟨?_, ?_, fun hq => absurd hq e6, fun _ => e7⟩
    · rcases e5 with c1 | c1 <;>
        simp [modeFlagCount, e1, e2, e3, hsf, hrm, hbc, c1, h7]
    · intro act hact
      rw [e4] at hact
      exact hpend act hact
  rw [if_neg h7]
  by_cases h8 : keybindingsMatches a.keybindings.toggle_focus k = true
  · rw [if_pos h8]
    dsimp only
    split <;>
      exact ⟨by simpa [modeFlagCount] using hmode, fun act hact => hpend act hact,
        fun hq => by simp at hq, fun _ => rfl⟩
  rw [if_neg h8]
  by_cases h9 : keybindingsMatches a.keybindings.search k = true
  · rw [if_pos h9]
    have hfl := bool_eq_false_of_not_true h7
    have hrm := bool_eq_false_of_not_true h4
    have hbc := bool_eq_false_of_not_true h5
    refine ⟨?_, fun act hact => hpend act hact, fun hq => by simp at hq, fun _ => rfl⟩
    simp [modeFlagCount, hfl, hrm, hbc]
  rw [if_neg h9]
  by_cases h10 : a.focus = Focus.Sidebar
  · rw [if_pos h10]
    obtain ⟨e1, e2, e3, e4, e5, e6, e7⟩ := handle_sidebar_effects a k
    exact ⟨by rw [modeFlagCount_congr _ a e1 e2 e3 e4]; exact hmode,
      fun act hact => hpend act (by rw [e5] at hact; exact hact), e6, e7⟩
  rw [if_neg h10]
  have hsf := bool_eq_false_of_not_true h6
  have hfl := bool_eq_false_of_not_true h7
  have hrm := bool_eq_false_of_not_true h4
  have hbc := bool_eq_false_of_not_true h5
  cases hscr : a.screen with
  | Startup =>
    dsimp only
    obtain ⟨e1, e2, e3, e4, e5, e6, e7⟩ := handle_startup_effects a k
    exact ⟨by rw [modeFlagCount_congr _ a e1 e2 e3 e4]; exact hmode,
      fun act hact => hpend act (by rw [e5] at hact; exact hact), e6, e7⟩
  | Search =>
    dsimp only
    obtain ⟨e1, e2, e3, e4, e5, e6, e7⟩ := handle_search_screen_effects a k
    exact ⟨by rw [modeFlagCount_congr _ a e1 e2 e3 e4]; exact hmode,
      fun act hact => hpend act (by rw [e5] at hact; exact hact), e6, e7⟩
  | ShowList =>
    dsimp only
    obtain ⟨e1, e2, e3, e4, e5, e6, e7⟩ := handle_show_list_effects a k
    exact ⟨by rw [modeFlagCount_congr _ a e1 e2 e3 e4]; exact hmode,
      fun act hact => hpend act (by rw [e5] at hact; exact hact), e6, e7⟩
  | EpisodeList =>
    dsimp only
    obtain ⟨e1, e2, e3, e4, e5⟩ := handle_episode_list_effects a k
    refine ⟨?_, fun act hact => hpend act (by rw [e3.2.2] at hact; exact hact), e4, e5⟩
    rcases e3 with ⟨c1, c2, c3⟩
    rcases c1 with c1 | c1 <;>
      simp [modeFlagCount, e1, e2, c1, c2, hsf, hfl, hrm, hbc]
  | QualitySelect =>
    dsimp only
    obtain ⟨e1, e2, e3, e4, e5, e6, e7⟩ := handle_quality_effects a k
    exact ⟨by rw [modeFlagCount_congr _ a e1 e2 e3 e4]; exact hmode,
      fun act hact => hpend act (by rw [e5] at hact; exact hact), e6, e7⟩
  | Playback =>
    dsimp only
    obtain ⟨e1, e2, e3, e4, e5, e6, e7⟩ := handle_playback_effects a k
    exact ⟨by rw [modeFlagCount_congr _ a e1 e2 e3 e4]; exact hmode,
      fun act hact => hpend act (by rw [e5] at hact; exact hact), e6, e7⟩
  | BatchSelect =>
    dsimp only
    obtain ⟨e1, e2, e3, e4, e5⟩ := handle_batch_input_effects a k
    refine ⟨?_, ?_, e4, e5⟩
    · rcases e3 with ⟨c1, c2, c3⟩ | ⟨c1, c2, c3⟩ | ⟨c1, c2, c3⟩ <;>
        simp [modeFlagCount, e1, e2, c1, c2, hsf, hfl, hrm, hbc]
    · rcases e3 with ⟨c1, c2, c3⟩ | ⟨c1, c2, c3⟩ | ⟨c1, c2, c3⟩
      · intro act hact
        rw [c3] at hact
        exact hpend act hact
      · intro act hact
        rw [c3] at hact
        cases hact
        exact Or.inl rfl
      · intro act hact
        rw [c3] at hact
        exact hpend act hact
  | Loading =>
    dsimp only
    split
    · exact ⟨by simpa [modeFlagCount] using hmode, fun act hact => hpend act hact,
        fun _ => rfl, fun hne => absurd rfl hne⟩
    · exact ⟨by simpa [modeFlagCount] using hmode, fun act hact => hpend act hact,
        fun hq => by simp at hq, fun _ => rfl⟩

theorem reachable_inv (a : App) (h : Reachable a) :
    modeFlagCount a ≤ 1 ∧ PendingWellFormed a := by
  induction h with
  | init mode quality download_mode kb colors records =>
    constructor
    · unfold App.set_history
      dsimp only
      split <;> simp [modeFlagCount, App.new]
    · intro act hact
      unfold App.set_history at hact
      dsimp only at hact
      split at hact <;> simp [App.new] at hact
  | step a k _ ih =>
    exact ⟨(handle_input_preserves a k ih.1 ih.2).1,
      (handle_input_preserves a k ih.1 ih.2).2.1⟩

/-! ### Claim C6: mutual exclusion of the input-mode flags -/

/-- Claim C6: in every state reachable from the initial state by key
events, at most one of `search_focused`, `episode_filter_active`,
`range_input_mode` and `batch_confirm_mode` is true. -/
theorem c6_mode_flags_mutually_exclusive (a : App) (h : Reachable a) :
    modeFlagCount a ≤ 1 :=
  (reachable_inv a h).1

/-- Witness for C6 at a concrete reachable state. -/
theorem c6_mode_flags_mutually_exclusive_witness :
    modeFlagCount initialApp ≤ 1 :=
  c6_mode_flags_mutually_exclusive initialApp
    (Reachable.init "sub" "best" false defaultKeybindings defaultColorScheme [])

/-! ### Claim C10: Quit and should_quit agree -/

/-- Claim C10 (implicit): on reachable states, `handle_input` returns
`Quit` exactly when the same call leaves `should_quit` set: a `Quit`
return sets the flag, any other return leaves the flag untouched, and
a call that turns the flag from false to true returns `Quit` — so the
orchestration loop's two exit tests always agree. -/
theorem c10_quit_iff_should_quit (a : App) (k : KeyEvent) (h : Reachable a) :
    ((a.handle_input k).2 = Action.Quit → (a.handle_input k).1.should_quit = true) ∧
    ((a.handle_input k).2 ≠ Action.Quit →
      (a.handle_input k).1.should_quit = a.should_quit) ∧
    (a.should_quit = false → (a.handle_input k).1.should_quit = true →
      (a.handle_input k).2 = Action.Quit) := by
  have hp := handle_input_preserves a k (reachable_inv a h).1 (reachable_inv a h).2
  refine ⟨hp.2.2.1, hp.2.2.2, ?_⟩
  intro hsq hsq2
  by_contra hne
  have := hp.2.2.2 hne
  rw [hsq2, hsq] at this
  cases this

/-- Witness for C10 at a concrete input: Ctrl+C from the initial state
returns `Quit` and sets `should_quit`. -/
theorem c10_quit_iff_should_quit_witness :
    (initialApp.handle_input ⟨KeyCode.Char 'c', ⟨true, false, false, false⟩⟩).1.should_quit =
      true := by
  have h := c10_quit_iff_should_quit initialApp
    ⟨KeyCode.Char 'c', ⟨true, false, false, false⟩⟩
    (Reachable.init "sub" "best" false defaultKeybindings defaultColorScheme [])
  exact h.1 (by decide)

end AnimeWatcher
